import Mathlib

/-!
Verification of the TrialMatchAI matching core against its specification.

The development shallowly embeds the four core components of the repository
(src/utils/matcher.py, src/utils/eligibility_parser.py,
src/utils/geographic_matcher.py, src/models/nlp_model.py) as executable Lean
definitions and settles the frozen claims about them.

Modelling conventions, applied uniformly:
* Python strings are lists of characters (abbrev Str); Python float arithmetic
  on the heuristic scores is modelled with rationals (the scores are small sums
  of decimal constants and ratios, so rational arithmetic matches the intent of
  the code; claims proved here do not hinge on binary floating-point rounding).
* Python regular expressions are embedded through a small backtracking engine
  (inductive RE below) run with enough fuel; each pattern literal of the source
  is transliterated into an RE term next to a comment quoting the original.
* Python dicts keyed by strings become association lists in insertion order;
  Python sets, whose iteration order is unspecified, are modelled by
  first-occurrence deduplicated lists.
* Outbound network calls (the Nominatim geocoder) are modelled as an oracle
  parameter, so every theorem quantifies over all possible collaborator
  behaviour.
-/

namespace TrialMatch

/- The Batteries rational arithmetic definitions are irreducible by default,
which blocks kernel evaluation of concrete score computations in the witness
theorems below; restore the ordinary reducibility for this development. -/
attribute [local semireducible] Rat.add Rat.sub Rat.mul Rat.inv Rat.ofScientific

/-! ## Basic string helpers (Python str operations) -/

abbrev Str := List Char

/-- Characters treated as whitespace by Python str.strip / str.split()
(ASCII fragment; all inputs in this development are ASCII). -/
def pyIsSpace (c : Char) : Bool :=
  c = ' ' || c = '\t' || c = '\n' || c = '\x0d' || c = '\x0b' || c = '\x0c'

/-- Python str.strip(): drop leading and trailing whitespace. -/
def pyStrip (s : Str) : Str :=
  ((s.dropWhile pyIsSpace).reverse.dropWhile pyIsSpace).reverse

/-- Python str.lower() (ASCII). -/
def pyLower (s : Str) : Str := s.map Char.toLower

/-- Python str.upper() (ASCII). -/
def pyUpper (s : Str) : Str := s.map Char.toUpper

/-- Python str.title() (ASCII approximation): upper-case every letter that
follows a non-letter, lower-case the rest. -/
def pyTitle (s : Str) : Str :=
  (s.foldl (fun (acc : Str × Bool) c =>
    if c.isAlpha then
      (acc.1 ++ [if acc.2 then c.toLower else c.toUpper], true)
    else (acc.1 ++ [c], false)) ([], false)).1

/-- Python substring test (needle in haystack). -/
def strIn (needle : Str) : Str → Bool
  | [] => needle = []
  | c :: t => needle.isPrefixOf (c :: t) || strIn needle t

/-- Python str.split(sep) for a single-character separator: keeps empty parts. -/
def splitOnChar (sep : Char) (s : Str) : List Str :=
  s.foldr (fun c acc =>
    match acc with
    | [] => [[c]]
    | p :: ps => if c = sep then [] :: p :: ps else (c :: p) :: ps) [[]]

/-- Python str.split() with no argument: split on whitespace runs, dropping
empty fragments. -/
def splitWS (s : Str) : List Str :=
  let step := s.foldr (fun c (acc : Str × List Str) =>
    if pyIsSpace c then
      if acc.1 = [] then acc else ([], acc.1 :: acc.2)
    else (c :: acc.1, acc.2)) ([], [])
  if step.1 = [] then step.2 else step.1 :: step.2

/-- Python ",".join(parts). -/
def joinWith (sep : Str) : List Str → Str
  | [] => []
  | [p] => p
  | p :: ps => p ++ sep ++ joinWith sep ps

/-- First-occurrence deduplication (canonical stand-in for Python set order,
which is unspecified). -/
def dedupFirst (l : List Str) : List Str :=
  l.foldl (fun acc x => if x ∈ acc then acc else acc ++ [x]) []

/-! ## A small regular-expression engine

Backtracking engine for the regex dialect actually used by the repository:
literals, character classes (possibly negated), alternation, greedy star /
plus / option, capture groups and the word boundary assertion.  Candidate
continuations are produced in Python preference order (greedy, left
alternative first), so the head of the candidate list is exactly the match
Python re would choose.  Fuel bounds star unrolling; every starred subpattern
in this repository consumes at least one character per iteration, so fuel
(length + 8) never cuts off a real match. -/

inductive RE : Type
  | eps : RE
  | chr (c : Char) : RE
  | cls (cs : List Char) (neg : Bool) : RE
  | wordB : RE
  | seq (a b : RE) : RE
  | alt (a b : RE) : RE
  | opt (r : RE) : RE
  | star (r : RE) : RE
  | group (idx : Nat) (r : RE) : RE
deriving Repr

/-- Captured group spans: group index to half-open span (start, stop);
latest entry wins, matching the Python semantics that a group records its
most recent match. -/
abbrev Caps := List (Nat × Nat × Nat)

def setCap (i s e : Nat) (caps : Caps) : Caps := (i, s, e) :: caps

def getCap (caps : Caps) (i : Nat) : Option (Nat × Nat) :=
  match caps.find? (fun c => c.1 = i) with
  | some (_, s, e) => some (s, e)
  | none => none

def isWordChar (c : Char) : Bool := c.isAlphanum || c = '_'

/-- Does character c of the subject match class cs (negated if neg), under
optional case-insensitivity? -/
def clsMatch (ci : Bool) (cs : List Char) (neg : Bool) (c : Char) : Bool :=
  let hit := if ci then cs.any (fun k => k.toLower = c.toLower) else cs.contains c
  if neg then !hit else hit

/-- One layer of the engine: structural recursion over the regex, with the
continuation `next` used to unroll a star one step (the star body is retried
at the next lower fuel level).  Keeping both recursions structural lets the
kernel evaluate concrete matches in the witness theorems. -/
def runREAux (ci : Bool) (s : Str)
    (next : RE → Nat → Caps → List (Nat × Caps)) :
    RE → Nat → Caps → List (Nat × Caps)
  | .eps, pos, caps => [(pos, caps)]
  | .chr c, pos, caps =>
    match s.get? pos with
    | some d => if (if ci then c.toLower = d.toLower else c = d)
        then [(pos + 1, caps)] else []
    | none => []
  | .cls cs neg, pos, caps =>
    match s.get? pos with
    | some d => if clsMatch ci cs neg d then [(pos + 1, caps)] else []
    | none => []
  | .wordB, pos, caps =>
    let before := match pos with
      | 0 => false
      | p + 1 => (s.get? p).elim false isWordChar
    let after := (s.get? pos).elim false isWordChar
    if before ≠ after then [(pos, caps)] else []
  | .seq a b, pos, caps =>
    (runREAux ci s next a pos caps).flatMap
      (fun pc => runREAux ci s next b pc.1 pc.2)
  | .alt a b, pos, caps =>
    runREAux ci s next a pos caps ++ runREAux ci s next b pos caps
  | .opt r, pos, caps =>
    runREAux ci s next r pos caps ++ [(pos, caps)]
  | .star r, pos, caps =>
    next (.seq r (.star r)) pos caps ++ [(pos, caps)]
  | .group i r, pos, caps =>
    (runREAux ci s next r pos caps).map
      (fun pc => (pc.1, setCap i pos pc.1 pc.2))

/-- Run regex r on subject s from position pos with current captures,
returning the list of (end position, captures) continuations in Python
preference order (greedy, left alternative first). -/
def runRE : Nat → Bool → RE → Str → Nat → Caps → List (Nat × Caps)
  | 0, _, _, _, _, _ => []
  | fuel + 1, ci, re, s, pos, caps =>
    runREAux ci s (fun r p c => runRE fuel ci r s p c) re pos caps

structure MatchInfo where
  mstart : Nat
  mstop : Nat
  caps : Caps
deriving Repr, DecidableEq

/-- Fuel sufficient for every pattern in this repository (see engine note). -/
def reFuel (s : Str) : Nat := s.length + 8

/-- Python-style slice s[a:b]. -/
def slice (s : Str) (a b : Nat) : Str := (s.take b).drop a

/-- The text of group 0 of a match. -/
def group0 (s : Str) (m : MatchInfo) : Str := slice s m.mstart m.mstop

/-- The text of capture group i, if it participated in the match. -/
def groupText (s : Str) (m : MatchInfo) (i : Nat) : Option Str :=
  (getCap m.caps i).map (fun p => slice s p.1 p.2)

/-- First match of r in s at position p or later (Python re.search behaviour:
earliest start wins, then the engine preference order). -/
def searchFrom (ci : Bool) (r : RE) (s : Str) (p : Nat) : Option MatchInfo :=
  ((List.range (s.length + 1 - p)).map (· + p)).findSome? (fun q =>
    match runRE (reFuel s) ci r s q [] with
    | (e, caps) :: _ => some ⟨q, e, caps⟩
    | [] => none)

/-- Python re.search. -/
def reSearch (ci : Bool) (r : RE) (s : Str) : Option MatchInfo :=
  searchFrom ci r s 0

/-- Python re.finditer: non-overlapping matches, left to right. -/
def reFinditer (ci : Bool) (r : RE) (s : Str) : List MatchInfo :=
  go (s.length + 2) 0
where
  go : Nat → Nat → List MatchInfo
    | 0, _ => []
    | fuel + 1, p =>
      match searchFrom ci r s p with
      | none => []
      | some m =>
        m :: go fuel (if m.mstop = m.mstart then m.mstop + 1 else m.mstop)

/-- Python re.split (for the separator patterns of this repository, all of
which consume at least one character per match). -/
def reSplit (ci : Bool) (r : RE) (s : Str) : List Str :=
  go (s.length + 2) 0
where
  go : Nat → Nat → List Str
    | 0, p => [s.drop p]
    | fuel + 1, p =>
      match searchFrom ci r s p with
      | none => [s.drop p]
      | some m =>
        if m.mstop = m.mstart then [s.drop p]
        else slice s p m.mstart :: go fuel m.mstop

/-! ### Regex notation helpers used to transliterate the source patterns -/

def RE.cat (l : List RE) : RE := l.foldr .seq .eps

def lit (s : String) : RE := .cat (s.data.map .chr)

def oneOf (s : String) : RE := .cls s.data false

def noneOf (s : String) : RE := .cls s.data true

/-- Regex shorthand for digit characters. -/
def reD : RE := oneOf "0123456789"

/-- Regex shorthand for whitespace characters. -/
def reS : RE := oneOf " \t\n\x0d\x0b\x0c"

def RE.plus (r : RE) : RE := .seq r (.star r)

/-- A pattern together with its number of capture groups (Python
re.Pattern.groups), needed to model findall and groups(). -/
structure Pat where
  re : RE
  ngroups : Nat
deriving Repr

/-! ## Numbers -/

/-- Value of a decimal digit character. -/
def digitVal (c : Char) : Nat := c.toNat - '0'.toNat

/-- Natural number denoted by a digit string. -/
def digitsToNat (s : Str) : Nat := s.foldl (fun a c => a * 10 + digitVal c) 0

/-- Rational denoted by a decimal literal of the shape digits(.digits)?, the
only shape produced by the numeric regexes of the repository (models Python
float() on such strings). -/
def decToRat (s : Str) : ℚ :=
  match splitOnChar '.' s with
  | [ip] => (digitsToNat ip : ℚ)
  | [ip, fp] => (digitsToNat ip : ℚ) + (digitsToNat fp : ℚ) / ((10 : ℚ) ^ fp.length)
  | _ => 0

/-- The regex \d+(?:\.\d+)? used by findall-based numeric extraction. -/
def numberRE : RE := .cat [RE.plus reD, .opt (.cat [.chr '.', RE.plus reD])]

/-- Python re.findall(r+d+(?:\.\d+)?, s) followed by float() on each match. -/
def findNumbers (s : Str) : List ℚ :=
  (reFinditer false numberRE s).map (fun m => decToRat (group0 s m))

/-- The regex (\d+): first run of digits (used for patient age extraction). -/
def digitRunRE : RE := .group 1 (RE.plus reD)

/-- Python int(re.search(r(\d+), s).group(1)), when a digit is present. -/
def firstNatIn (s : Str) : Option Nat :=
  (reSearch false digitRunRE s).map (fun m => digitsToNat (group0 s m))

/-! ## Rounding to one decimal place

pandas Series.round(1) rounds half to even (numpy rounding).  The claims
proved below (range bounds, and that the maximal score rounds to exactly 100)
are insensitive to the tie-breaking direction. -/

/-- Round a rational to the nearest integer, ties to even. -/
def roundHalfEven (q : ℚ) : ℤ :=
  if q - ⌊q⌋ < 1/2 then ⌊q⌋
  else if (1:ℚ)/2 < q - ⌊q⌋ then ⌊q⌋ + 1
  else if Even ⌊q⌋ then ⌊q⌋ else ⌊q⌋ + 1

/-- Round to one decimal place, ties to even: models Series.round(1). -/
def round1 (q : ℚ) : ℚ := (roundHalfEven (q * 10) : ℚ) / 10

theorem roundHalfEven_nonneg {q : ℚ} (h : 0 ≤ q) : 0 ≤ roundHalfEven q := by
  have hf : (0:ℤ) ≤ ⌊q⌋ := Int.floor_nonneg.mpr h
  unfold roundHalfEven
  split_ifs <;> omega

theorem roundHalfEven_le {q : ℚ} {n : ℤ} (h : q ≤ n) : roundHalfEven q ≤ n := by
  have hf : ⌊q⌋ ≤ n := by
    calc ⌊q⌋ ≤ ⌊(n : ℚ)⌋ := Int.floor_le_floor h
    _ = n := Int.floor_intCast n
  by_cases hlt : q - ⌊q⌋ < 1/2
  · simp only [roundHalfEven, hlt, if_true]; exact hf
  · have hhalf : (1:ℚ)/2 ≤ q - ⌊q⌋ := le_of_not_lt hlt
    have hfq : (⌊q⌋ : ℚ) + 1/2 ≤ q := by linarith
    have hflt : ⌊q⌋ < n := by
      rcases lt_or_eq_of_le hf with h' | h'
      · exact h'
      · exfalso
        have hn : ((⌊q⌋ : ℤ) : ℚ) = (n : ℚ) := by exact_mod_cast h'
        rw [hn] at hfq
        linarith
    unfold roundHalfEven
    split_ifs <;> omega

theorem round1_nonneg {q : ℚ} (h : 0 ≤ q) : 0 ≤ round1 q := by
  unfold round1
  have h10 : (0:ℚ) ≤ q * 10 := by linarith
  have := roundHalfEven_nonneg h10
  have : (0:ℚ) ≤ (roundHalfEven (q * 10) : ℚ) := by exact_mod_cast this
  linarith

theorem round1_le_100 {q : ℚ} (h : q ≤ 100) : round1 q ≤ 100 := by
  unfold round1
  have h10 : q * 10 ≤ ((1000 : ℤ) : ℚ) := by push_cast; linarith
  have := roundHalfEven_le h10
  have hc : (roundHalfEven (q * 10) : ℚ) ≤ 1000 := by exact_mod_cast this
  linarith

theorem round1_100 : round1 100 = 100 := by
  unfold round1 roundHalfEven
  norm_num

/-! ## difflib.SequenceMatcher ratio

Faithful embedding of difflib.SequenceMatcher(None, a, b).ratio(): with no
explicit junk predicate, only the autojunk heuristic applies (characters
occurring more than len(b)/100 + 1 times when len(b) >= 200 are removed from
the b-index b2j; they stay out of the junk set, so the first two extension
loops of find_longest_match still run and the junk-extension loops never
fire). -/

/-- Characters of b purged from b2j by the autojunk heuristic. -/
def smPopular (b : Str) : List Char :=
  if 200 ≤ b.length then b.dedup.filter (fun c => b.length / 100 + 1 < b.count c)
  else []

/-- b2j: positions of character c in b, in increasing order, with popular
characters removed. -/
def smB2j (b : Str) (c : Char) : List Nat :=
  if (smPopular b).contains c then []
  else (List.range b.length).filter (fun j => b.get? j = some c)

/-- State of the chaining pass of find_longest_match. -/
structure FlmSt where
  besti : Nat
  bestj : Nat
  bestsize : Nat
  j2len : List (Nat × Nat)

/-- The j2len chaining pass of find_longest_match (the core double loop). -/
def flmCore (a b : Str) (alo ahi blo bhi : Nat) : Nat × Nat × Nat :=
  let final := ((List.range (ahi - alo)).map (· + alo)).foldl (fun (st : FlmSt) i =>
    match a.get? i with
    | none => { st with j2len := [] }
    | some ach =>
      let js := (smB2j b ach).filter (fun j => blo ≤ j && j < bhi)
      let inner := js.foldl (fun (p : List (Nat × Nat) × Nat × Nat × Nat) j =>
        let k := (if j = 0 then 0
          else ((st.j2len.find? (fun e => e.1 = j - 1)).map (·.2)).getD 0) + 1
        let nj2 := (j, k) :: p.1
        if p.2.2.2 < k then (nj2, i + 1 - k, j + 1 - k, k)
        else (nj2, p.2)) ([], st.besti, st.bestj, st.bestsize)
      { besti := inner.2.1, bestj := inner.2.2.1, bestsize := inner.2.2.2,
        j2len := inner.1 })
    { besti := alo, bestj := blo, bestsize := 0, j2len := [] }
  (final.besti, final.bestj, final.bestsize)

/-- Backward extension loop of find_longest_match (junk set is empty). -/
def extendBack (a b : Str) (alo blo : Nat) : Nat → Nat → Nat → Nat
  | 0, _, _ => 0
  | fuel + 1, bi, bj =>
    if alo < bi ∧ blo < bj ∧ (a.get? (bi - 1)).isSome ∧
        a.get? (bi - 1) = b.get? (bj - 1) then
      1 + extendBack a b alo blo fuel (bi - 1) (bj - 1)
    else 0

/-- Forward extension loop of find_longest_match (junk set is empty). -/
def extendFwd (a b : Str) (ahi bhi : Nat) : Nat → Nat → Nat → Nat
  | 0, _, _ => 0
  | fuel + 1, i, j =>
    if i < ahi ∧ j < bhi ∧ (a.get? i).isSome ∧ a.get? i = b.get? j then
      1 + extendFwd a b ahi bhi fuel (i + 1) (j + 1)
    else 0

/-- find_longest_match on the window a[alo:ahi] x b[blo:bhi]. -/
def findLongestMatch (a b : Str) (alo ahi blo bhi : Nat) : Nat × Nat × Nat :=
  let core := flmCore a b alo ahi blo bhi
  let eb := extendBack a b alo blo core.1 core.1 core.2.1
  let bi := core.1 - eb
  let bj := core.2.1 - eb
  let bs := core.2.2 + eb
  let ef := extendFwd a b ahi bhi (ahi - (bi + bs)) (bi + bs) (bj + bs)
  (bi, bj, bs + ef)

/-- Total size of the matching blocks (the recursive divide step of
get_matching_blocks; ratio only needs the sum of block sizes, which is
independent of the queue processing order). -/
def gmbSize (a b : Str) : Nat → List (Nat × Nat × Nat × Nat) → Nat → Nat
  | 0, _, acc => acc
  | _ + 1, [], acc => acc
  | fuel + 1, (alo, ahi, blo, bhi) :: rest, acc =>
    let m := findLongestMatch a b alo ahi blo bhi
    let i := m.1
    let j := m.2.1
    let k := m.2.2
    if k = 0 then gmbSize a b fuel rest acc
    else
      let q1 := if alo < i ∧ blo < j then [(alo, i, blo, j)] else []
      let q2 := if i + k < ahi ∧ j + k < bhi then [(i + k, ahi, j + k, bhi)] else []
      gmbSize a b fuel (q1 ++ q2 ++ rest) (acc + k)

/-- SequenceMatcher(None, a, b).ratio(). -/
def smRatio (a b : Str) : ℚ :=
  let total := a.length + b.length
  if total = 0 then 1
  else
    (2 * gmbSize a b (2 * total + 4) [(0, a.length, 0, b.length)] 0 : ℚ) / total

/-! ## Trial matcher (src/utils/matcher.py)

A DataFrame row is an association list from column name to cell value, plus
the three derived columns the matcher may attach (modelled as Option fields,
none meaning the column is absent).  Entity dictionaries are association
lists, mirroring Python dict lookups with .get defaults. -/

/-- Shorthand turning a string literal into a character list. -/
def st (x : String) : Str := x.data

abbrev Entities := List (Str × List Str)

/-- Python entities_dict.get(k, []). -/
def entGet (d : Entities) (k : Str) : List Str :=
  ((d.find? (fun p => p.1 = k)).map (·.2)).getD []

abbrev Cells := List (Str × Str)

/-- Cell of a row, none when the column is absent (field not in row.index). -/
def cellGet? (r : Cells) (f : Str) : Option Str :=
  (r.find? (fun p => p.1 = f)).map (·.2)

structure MRow where
  cells : Cells
  confidence_score : Option ℚ := none
  field_scores : Option (List (Str × ℚ)) := none
  confidence_percentage : Option ℚ := none
deriving DecidableEq, Repr

abbrev Frame := List MRow

/-- matcher.py _fuzzy_match. -/
def fuzzy_match (t1 t2 : Str) (threshold : ℚ) : Bool := threshold ≤ smRatio t1 t2

/-- matcher.py _match_conditions. -/
def match_conditions (fv : Str) (conds alls : List Str) : ℚ :=
  let sc := conds.foldl (fun sc c =>
    if strIn c fv then sc + 2.0
    else if fuzzy_match c fv 0.8 then sc + 1.5 else sc) 0
  let sc := alls.foldl (fun sc e =>
    if strIn e fv && !conds.contains e then sc + 0.5 else sc) sc
  min sc 5.0

/-- matcher.py sex_terms. -/
def sex_terms : List Str := [st "male", st "female", st "m", st "f", st "men", st "women"]

/-- matcher.py _match_sex: note the second test is Python list membership of
the term in the demographic entities, while the first test on field_value is
substring containment. -/
def match_sex (fv : Str) (demo : List Str) : ℚ :=
  let sc := sex_terms.foldl (fun sc t =>
    if strIn t fv && demo.contains t then sc + 2.0
    else if strIn t fv &&
        [st "male", st "female", st "m", st "f"].any demo.contains then sc + 1.5
    else sc) 0
  min sc 3.0

/-- matcher.py _match_age: the patient age is the first digit run of the
first demographic entity containing a digit; Python `if patient_age:` also
rejects age 0. -/
def match_age (fv : Str) (demo : List Str) : ℚ :=
  let patient_age : Option Nat := demo.findSome? firstNatIn
  let sc := match patient_age with
    | some a =>
      if a ≠ 0 then
        [st "adult", st "older_adult", st "pediatric", st "child"].foldl (fun sc t =>
          if strIn t fv then
            if t = st "adult" && 18 ≤ a && a ≤ 64 then sc + 2.0
            else if t = st "older_adult" && 65 ≤ a then sc + 2.0
            else if (t = st "pediatric" || t = st "child") && a < 18 then sc + 2.0
            else sc
          else sc) 0
      else 0
    | none => 0
  min sc 3.0

/-- matcher.py _match_phases (field test is substring, entity test is list
membership). -/
def match_phases (fv : Str) (alls : List Str) : ℚ :=
  let terms := [st "phase1", st "phase2", st "phase3", st "phase4",
    st "phase i", st "phase ii", st "phase iii"]
  let sc := terms.foldl (fun sc t =>
    if strIn t fv && alls.contains t then sc + 1.5 else sc) 0
  min sc 2.0

/-- matcher.py _match_general. -/
def match_general (fv : Str) (ents : List Str) : ℚ :=
  let sc := ents.foldl (fun sc e =>
    if strIn e fv then sc + 1.0
    else if fuzzy_match e fv 0.7 then sc + 0.5 else sc) 0
  min sc 3.0

/-- matcher.py field_weights, in dict insertion order. -/
def field_weights : List (Str × ℚ) :=
  [(st "Conditions", 3.0), (st "Sex", 2.0), (st "Age", 2.0), (st "Phases", 1.5),
   (st "Study Status", 1.0), (st "Study Type", 0.5), (st "Locations", 0.3)]

/-- matcher.py calculate_confidence_score: returns (total_score,
field_scores); a field absent from the row contributes nothing. -/
def calculate_confidence_score (ent : Entities) (row : Cells) : ℚ × List (Str × ℚ) :=
  let alls := entGet ent (st "all_entities")
  let conds := entGet ent (st "conditions")
  let demo := entGet ent (st "demographics")
  field_weights.foldl (fun (acc : ℚ × List (Str × ℚ)) fw =>
    match cellGet? row fw.1 with
    | none => acc
    | some v =>
      let fv := pyLower v
      let fs :=
        if fw.1 = st "Conditions" then match_conditions fv conds alls
        else if fw.1 = st "Sex" then match_sex fv demo
        else if fw.1 = st "Age" then match_age fv demo
        else if fw.1 = st "Phases" then match_phases fv alls
        else match_general fv alls
      (acc.1 + fs * fw.2, acc.2 ++ [(fw.1, fs)])) (0, [])

/-- Value of the confidence_score column (0 when absent). -/
def scGet (m : MRow) : ℚ := m.confidence_score.getD 0

/-- Descending order on confidence_score, the key used by
sort_values(by=confidence_score, ascending=False).  The sort kind is left at
the pandas default; the claims proved here depend only on the resulting order
of keys, never on the placement of tied rows (see C5). -/
def byScoreDesc (x y : MRow) : Prop := scGet y ≤ scGet x

instance : DecidableRel byScoreDesc :=
  fun x y => (inferInstance : Decidable (scGet y ≤ scGet x))

instance : IsTotal MRow byScoreDesc :=
  ⟨fun x y => le_total (scGet y) (scGet x)⟩

instance : IsTrans MRow byScoreDesc :=
  ⟨fun _ _ _ hab hbc => le_trans hbc hab⟩

/-- pandas matches[confidence_score].max() if len(matches) > 0 else 1. -/
def matcherMaxScore (ms : Frame) : ℚ :=
  match ms.map scGet with
  | [] => 1
  | x :: xs => xs.foldl max x

/-- Stage 1 of match_patient_to_trials: attach confidence_score and
field_scores to every row (lines 160-165). -/
def matcherScored (ent : Entities) (trials : Frame) : Frame :=
  trials.map (fun m =>
    let sd := calculate_confidence_score ent m.cells
    { m with confidence_score := some sd.1, field_scores := some sd.2 })

/-- Stage 2: matches = trials_df[trials_df[confidence_score] > 0]. -/
def matcherKept (ent : Entities) (trials : Frame) : Frame :=
  (matcherScored ent trials).filter (fun m => 0 < scGet m)

/-- Stage 3: matches.sort_values(by=confidence_score, ascending=False). -/
def matcherSorted (ent : Entities) (trials : Frame) : Frame :=
  List.insertionSort byScoreDesc (matcherKept ent trials)

/-- The max_score of the batch (line 172). -/
def matcherMax (ent : Entities) (trials : Frame) : ℚ :=
  matcherMaxScore (matcherSorted ent trials)

/-- Stage 4: attach the confidence percentage column (line 173). -/
def matcherWithPct (ent : Entities) (trials : Frame) : Frame :=
  (matcherSorted ent trials).map (fun m =>
    { m with
        confidence_percentage := some (round1 (scGet m / matcherMax ent trials * 100)) })

/-- matcher.py match_patient_to_trials (lines 6-175): score every trial,
drop scores not strictly positive, sort by score descending, attach the
batch-relative confidence percentage, return the first 20 rows. -/
def match_patient_to_trials (ent : Entities) (trials : Frame) : Frame :=
  if ent.isEmpty || (entGet ent (st "all_entities")).isEmpty then []
  else (matcherWithPct ent trials).take 20

/-! ### Object-level model of the matcher for the no-mutation claim

The heap holds one entry per live DataFrame object.  trials_df.copy()
allocates a new object; a column assignment mutates in place the object its
local name is currently bound to; boolean selection, sort_values and head
return fresh objects.  The input table lives at heap index r. -/

abbrev Heap := List Frame

/-- match_patient_to_trials with the pandas object operations made explicit;
returns the final heap and the result frame. -/
def match_patient_to_trials_heap (ent : Entities) (h : Heap) (r : Nat) : Heap × Frame :=
  let input := (h.get? r).getD []
  if ent.isEmpty || (entGet ent (st "all_entities")).isEmpty then
    (h, [])
  else
    -- trials_df = trials_df.copy(): allocate, rebind the local name
    let r1 := h.length
    let h1 := h ++ [input]
    -- trials_df[confidence_score] = ..., trials_df[field_scores] = ...:
    -- in-place column assignments on the copy r1
    let h2 := h1.set r1 (matcherScored ent input)
    -- matches = trials_df[trials_df[confidence_score] > 0]: fresh object
    let h3 := h2 ++ [matcherKept ent input]
    -- matches = matches.sort_values(...): fresh object, name rebound
    let r3 := h3.length
    let h4 := h3 ++ [matcherSorted ent input]
    -- matches[confidence_percentage] = ...: in-place column assignment on r3
    let h5 := h4.set r3 (matcherWithPct ent input)
    -- matches.head(20): fresh result object
    (h5, (matcherWithPct ent input).take 20)

/-! ## Eligibility parser (src/utils/eligibility_parser.py)

Every regex literal of the parser is transliterated below; the comment above
each Pat quotes the original pattern.  The diagnostic reason / explanation
strings of the source (display-only formatted text) are not modelled. -/

/-- Left-associated alternation, preferring earlier entries as Python does. -/
def alts : List RE → RE
  | [] => .eps
  | [r] => r
  | r :: rs => .alt r (alts rs)

def altWords (ws : List String) : RE := alts (ws.map lit)

/-- Words joined by one-or-more whitespace, for patterns like targeted
therapy written with a whitespace-plus between the words. -/
def phrase : List String → RE
  | [] => .eps
  | [w] => lit w
  | w :: ws => .cat [lit w, RE.plus reS, phrase ws]

/-- The parser's category patterns (self.patterns), in dict insertion order. -/
def elig_patterns : List (Str × List Pat) := [
  (st "age", [
    -- age\s*[<>≤≥=]\s*(\d+)
    ⟨.cat [lit "age", .star reS, oneOf "<>≤≥=", .star reS, .group 1 (RE.plus reD)], 1⟩,
    -- age\s+(\d+)\s*[-–]\s*(\d+)
    ⟨.cat [lit "age", RE.plus reS, .group 1 (RE.plus reD), .star reS, oneOf "-–",
      .star reS, .group 2 (RE.plus reD)], 2⟩,
    -- (\d+)\s*years?\s*old
    ⟨.cat [.group 1 (RE.plus reD), .star reS, lit "year", .opt (.chr 's'),
      .star reS, lit "old"], 1⟩,
    -- between\s+(\d+)\s*and\s*(\d+)\s*years?
    ⟨.cat [lit "between", RE.plus reS, .group 1 (RE.plus reD), .star reS, lit "and",
      .star reS, .group 2 (RE.plus reD), .star reS, lit "year", .opt (.chr 's')], 2⟩,
    -- (\d+)\s*to\s*(\d+)\s*years?
    ⟨.cat [.group 1 (RE.plus reD), .star reS, lit "to", .star reS,
      .group 2 (RE.plus reD), .star reS, lit "year", .opt (.chr 's')], 2⟩]),
  (st "weight", [
    -- weight\s*[<>≤≥=]\s*(\d+(?:\.\d+)?)\s*(kg|lb|lbs|pounds?)
    ⟨.cat [lit "weight", .star reS, oneOf "<>≤≥=", .star reS, .group 1 numberRE,
      .star reS, .group 2 (alts [lit "kg", lit "lb", lit "lbs",
        .seq (lit "pound") (.opt (.chr 's'))])], 2⟩,
    -- body\s*mass\s*index\s*[<>≤≥=]\s*(\d+(?:\.\d+)?)
    ⟨.cat [lit "body", .star reS, lit "mass", .star reS, lit "index", .star reS,
      oneOf "<>≤≥=", .star reS, .group 1 numberRE], 1⟩,
    -- bmi\s*[<>≤≥=]\s*(\d+(?:\.\d+)?)
    ⟨.cat [lit "bmi", .star reS, oneOf "<>≤≥=", .star reS, .group 1 numberRE], 1⟩]),
  (st "gender", [
    -- (male|female|men|women)
    ⟨.group 1 (altWords ["male", "female", "men", "women"]), 1⟩,
    -- (m|f)\b
    ⟨.cat [.group 1 (.alt (.chr 'm') (.chr 'f')), .wordB], 1⟩]),
  (st "condition", [
    -- (cancer|carcinoma|tumor|tumour|neoplasm|malignancy)
    ⟨.group 1 (altWords ["cancer", "carcinoma", "tumor", "tumour", "neoplasm",
      "malignancy"]), 1⟩,
    -- (breast|lung|...|thyroid)\s+cancer
    ⟨.cat [.group 1 (altWords ["breast", "lung", "prostate", "colon", "pancreatic",
      "ovarian", "brain", "liver", "kidney", "bladder", "cervical", "endometrial",
      "thyroid"]), RE.plus reS, lit "cancer"], 1⟩,
    -- (leukemia|lymphoma|melanoma|sarcoma)
    ⟨.group 1 (altWords ["leukemia", "lymphoma", "melanoma", "sarcoma"]), 1⟩]),
  (st "stage", [
    -- stage\s*([ivx0-9]+)
    ⟨.cat [lit "stage", .star reS, .group 1 (RE.plus (oneOf "ivx0123456789"))], 1⟩,
    -- grade\s*([ivx0-9]+)
    ⟨.cat [lit "grade", .star reS, .group 1 (RE.plus (oneOf "ivx0123456789"))], 1⟩,
    -- t[0-4]n[0-3]m[0-1]  (TNM staging, no capture groups)
    ⟨.cat [.chr 't', oneOf "01234", .chr 'n', oneOf "0123", .chr 'm', oneOf "01"], 0⟩]),
  (st "biomarker", [
    -- (her2|her-2|egfr|kras|braf|alk|ros1|pdl1|msi|tmb|brca1|brca2)\s*(positive|...)
    ⟨.cat [.group 1 (altWords ["her2", "her-2", "egfr", "kras", "braf", "alk",
      "ros1", "pdl1", "msi", "tmb", "brca1", "brca2"]), .star reS,
      .group 2 (altWords ["positive", "negative", "high", "low", "mutated",
        "wild", "type"])], 2⟩,
    -- (estrogen|progesterone)\s*(positive|negative)
    ⟨.cat [.group 1 (altWords ["estrogen", "progesterone"]), .star reS,
      .group 2 (altWords ["positive", "negative"])], 2⟩,
    -- triple\s*negative
    ⟨.cat [lit "triple", .star reS, lit "negative"], 0⟩]),
  (st "medication", [
    -- (chemotherapy|chemo|radiation|radiotherapy|surgery|surgical|immunotherapy|
    --  targeted\s+therapy|hormone\s+therapy)
    ⟨.group 1 (alts [lit "chemotherapy", lit "chemo", lit "radiation",
      lit "radiotherapy", lit "surgery", lit "surgical", lit "immunotherapy",
      phrase ["targeted", "therapy"], phrase ["hormone", "therapy"]]), 1⟩,
    -- (prior|previous|history\s+of|no\s+prior)\s+(chemotherapy|chemo|radiation|surgery)
    ⟨.cat [.group 1 (alts [lit "prior", lit "previous", phrase ["history", "of"],
      phrase ["no", "prior"]]), RE.plus reS,
      .group 2 (altWords ["chemotherapy", "chemo", "radiation", "surgery"])], 2⟩,
    -- concurrent\s+(chemotherapy|radiation)
    ⟨.cat [lit "concurrent", RE.plus reS,
      .group 1 (altWords ["chemotherapy", "radiation"])], 1⟩]),
  (st "laboratory", [
    -- (hemoglobin|hgb|hct|hematocrit|wbc|white\s+blood\s+cell|platelet|creatinine|
    --  alt|ast|bilirubin)\s*[<>≤≥=]\s*(\d+(?:\.\d+)?)
    ⟨.cat [.group 1 (alts [lit "hemoglobin", lit "hgb", lit "hct", lit "hematocrit",
      lit "wbc", phrase ["white", "blood", "cell"], lit "platelet", lit "creatinine",
      lit "alt", lit "ast", lit "bilirubin"]), .star reS, oneOf "<>≤≥=",
      .star reS, .group 2 numberRE], 2⟩,
    -- ecog\s*performance\s*status\s*[<>≤≥=]\s*([0-2])
    ⟨.cat [lit "ecog", .star reS, lit "performance", .star reS, lit "status",
      .star reS, oneOf "<>≤≥=", .star reS, .group 1 (oneOf "012")], 1⟩,
    -- karnofsky\s*performance\s*status\s*[<>≤≥=]\s*(\d+)
    ⟨.cat [lit "karnofsky", .star reS, lit "performance", .star reS, lit "status",
      .star reS, oneOf "<>≤≥=", .star reS, .group 1 (RE.plus reD)], 1⟩]),
  (st "lifestyle", [
    -- (smoker|non-smoker|never\s+smoked|former\s+smoker|current\s+smoker)
    ⟨.group 1 (alts [lit "smoker", lit "non-smoker", phrase ["never", "smoked"],
      phrase ["former", "smoker"], phrase ["current", "smoker"]]), 1⟩,
    -- (pregnant|pregnancy|breastfeeding|lactating)
    ⟨.group 1 (altWords ["pregnant", "pregnancy", "breastfeeding", "lactating"]), 1⟩,
    -- (contraception|contraceptive)
    ⟨.group 1 (altWords ["contraception", "contraceptive"]), 1⟩]),
  (st "comorbidity", [
    -- (diabetes|hypertension|heart\s+disease|kidney\s+disease|liver\s+disease|
    --  lung\s+disease)
    ⟨.group 1 (alts [lit "diabetes", lit "hypertension", phrase ["heart", "disease"],
      phrase ["kidney", "disease"], phrase ["liver", "disease"],
      phrase ["lung", "disease"]]), 1⟩,
    -- (hiv|aids|hepatitis|tuberculosis)
    ⟨.group 1 (altWords ["hiv", "aids", "hepatitis", "tuberculosis"]), 1⟩,
    -- (autoimmune|immune\s+deficiency)
    ⟨.group 1 (alts [lit "autoimmune", phrase ["immune", "deficiency"]]), 1⟩])]

def exclusion_keywords : List Str :=
  [st "exclusion", st "exclude", st "not eligible", st "ineligible",
   st "contraindication", st "contraindicated", st "not suitable",
   st "not appropriate", st "must not", st "cannot", st "unable to",
   st "prohibited"]

def inclusion_keywords : List Str :=
  [st "inclusion", st "include", st "eligible", st "suitable", st "appropriate",
   st "must have", st "must be", st "required", st "necessary", st "criteria"]

inductive CriteriaType : Type
  | inclusion
  | exclusion
deriving DecidableEq, Repr

/-- The two negative-language regexes of _determine_criterion_type. -/
def negative_patterns : List RE := [
  -- \b(no|not|without|lacking|absence|free\s+of)\b
  .cat [.wordB, .group 1 (alts [lit "no", lit "not", lit "without", lit "lacking",
    lit "absence", phrase ["free", "of"]]), .wordB],
  -- \b(cannot|unable|prohibited|contraindicated)\b
  .cat [.wordB, .group 1 (altWords ["cannot", "unable", "prohibited",
    "contraindicated"]), .wordB]]

/-- eligibility_parser.py _determine_criterion_type. -/
def determine_criterion_type (t : Str) : CriteriaType :=
  let tl := pyLower t
  let exclusionScore := exclusion_keywords.countP (fun k => strIn k tl)
  let inclusionScore := inclusion_keywords.countP (fun k => strIn k tl)
  let negativeScore := negative_patterns.countP (fun p => (reSearch false p tl).isSome)
  if 0 < exclusionScore ∨ inclusionScore < negativeScore then .exclusion
  else .inclusion

def elig_medical_terms : List Str :=
  [st "cancer", st "tumor", st "malignant", st "metastatic", st "biomarker"]

/-- Python match.group() with no argument, which is by definition group 0. -/
def matchGroupDefault (s : Str) (m : MatchInfo) : Str := group0 s m

/-- eligibility_parser.py _calculate_match_confidence: base 0.5, plus 0.2 for
the exact-match test match.group() == match.group(0), plus 0.1 for matches
longer than 10 characters, plus 0.1 when the match contains a recognized
medical term, capped at 1.0. -/
def calculate_match_confidence (s : Str) (m : MatchInfo) : ℚ :=
  min (0.5
    + (if matchGroupDefault s m = group0 s m then 0.2 else 0)
    + (if 10 < (group0 s m).length then 0.1 else 0)
    + (if elig_medical_terms.any (fun t => strIn t (pyLower (group0 s m)))
        then 0.1 else 0))
    1.0

/-- Python match.groups() for a pattern with n capture groups. -/
def matchGroups (s : Str) (m : MatchInfo) (n : Nat) : List (Option Str) :=
  ((List.range n).map (· + 1)).map (groupText s m)

/-- Python str(x) for an optional string in an f-string (None prints as
None). -/
def pyFmt (o : Option Str) : Str := o.getD (st "None")

/-- eligibility_parser.py _extract_value. -/
def extract_value (s : Str) (m : MatchInfo) (p : Pat) (category : Str) : Option Str :=
  let groups := matchGroups s m p.ngroups
  match groups with
  | [] => some (group0 s m)
  | g0 :: rest =>
    if category = st "age" ∧ 2 ≤ groups.length then
      some (pyFmt g0 ++ st "-" ++ pyFmt (rest.head?.getD none))
    else if category = st "weight" ∧ 2 ≤ groups.length then
      some (pyFmt g0 ++ st " " ++ pyFmt (rest.head?.getD none))
    else g0

/-- eligibility_parser.py _extract_operator. -/
def extract_operator (s : Str) (m : MatchInfo) : Option Str :=
  let mt := group0 s m
  if [st ">", st "≥", st "greater than", st "more than"].any (strIn · mt) then
    some (st ">")
  else if [st "<", st "≤", st "less than", st "fewer than"].any (strIn · mt) then
    some (st "<")
  else if [st "=", st "equals", st "equal to"].any (strIn · mt) then
    some (st "=")
  else if [st "between", st "-", st "to"].any (strIn · mt) then
    some (st "between")
  else none

structure EligibilityCriterion where
  text : Str
  criterion_type : CriteriaType
  category : Str
  value : Option Str := none
  operator : Option Str := none
  confidence : ℚ := 0.0
deriving DecidableEq, Repr

structure BestMatch where
  category : Str
  value : Option Str
  operator : Option Str
deriving DecidableEq, Repr

/-- One step of the best-match scan of _parse_single_criterion: compare the
confidence of one regex match against the best so far. -/
def criterionStep (t : Str) (cat : Str) (p : Pat) (acc : ℚ × Option BestMatch)
    (m : MatchInfo) : ℚ × Option BestMatch :=
  if acc.1 < calculate_match_confidence t m then
    (calculate_match_confidence t m,
     some ⟨cat, extract_value t m p cat, extract_operator t m⟩)
  else acc

/-- The nested loop over categories, patterns and matches of
_parse_single_criterion. -/
def criterionScan (t : Str) : ℚ × Option BestMatch :=
  elig_patterns.foldl (fun acc cp =>
    cp.2.foldl (fun acc p =>
      (reFinditer true p.re t).foldl (criterionStep t cp.1 p) acc) acc) (0.0, none)

/-- eligibility_parser.py _parse_single_criterion: fragments shorter than 5
characters are skipped; otherwise the best pattern match across all
categories is kept when its confidence exceeds 0.3. -/
def parse_single_criterion (t : Str) : Option EligibilityCriterion :=
  if t = [] ∨ t.length < 5 then none
  else
    match (criterionScan t).2 with
    | some bm =>
      if 0.3 < (criterionScan t).1 then
        some ⟨t, determine_criterion_type t, bm.category, bm.value, bm.operator,
          (criterionScan t).1⟩
      else none
    | none => none

/-- re.split(r[.;]\s*, text). -/
def sentSepRE : RE := .cat [oneOf ".;", .star reS]

/-- re.split(r[•\-\*]\s*, sentence). -/
def bulletSepRE : RE := .cat [oneOf "•-*", .star reS]

/-- re.split(r\d+[\.\)]\s*, sentence). -/
def numberSepRE : RE := .cat [RE.plus reD, oneOf ".)", .star reS]

/-- eligibility_parser.py _split_into_criteria: split into sentences, then
extend the accumulator with the bullet split of each sentence and also with
its numbered-list split, finally strip fragments and drop the empty ones. -/
def split_into_criteria (t : Str) : List Str :=
  let sentences := reSplit false sentSepRE t
  let criteria := sentences.foldl (fun acc s =>
    acc ++ reSplit false bulletSepRE s ++ reSplit false numberSepRE s) []
  (criteria.map pyStrip).filter (· ≠ [])

/-- eligibility_parser.py parse_eligibility_text: returns the pair
(inclusion criteria, exclusion criteria). -/
def parse_eligibility_text (t : Str) :
    List EligibilityCriterion × List EligibilityCriterion :=
  if pyStrip t = [] then ([], [])
  else
    let tl := pyStrip (pyLower t)
    (split_into_criteria tl).foldl (fun acc s =>
      match parse_single_criterion s with
      | some c =>
        if c.criterion_type = .inclusion then (acc.1 ++ [c], acc.2)
        else (acc.1, acc.2 ++ [c])
      | none => acc) ([], [])

/-! ### Matching a patient against structured criteria -/

/-- One structured criterion dict as consumed by match_patient_to_criteria
(keys text, value, operator, confidence).  A missing or None value or
operator is modelled as the empty string, which Python treats identically in
every subsequent use (equality tests against operator literals and numeric
extraction both see no content). -/
structure Crit where
  text : Str := []
  value : Str := []
  operator : Str := []
  confidence : ℚ := 0
deriving DecidableEq, Repr

/-- Structured criteria: category buckets for each polarity. -/
structure Structured where
  inclusion : List (Str × List Crit)
  exclusion : List (Str × List Crit)
deriving DecidableEq, Repr

abbrev PatientData := List (Str × Str)

/-- Python patient_data.get(category, ""). -/
def pdGet (p : PatientData) (k : Str) : Str :=
  ((p.find? (fun e => e.1 = k)).map (·.2)).getD []

/-- Outcome of _evaluate_criterion (diagnostic reason string not modelled). -/
structure EvalRes where
  matched : Bool
  score : ℚ
deriving DecidableEq, Repr

/-- eligibility_parser.py _evaluate_numeric_criterion. -/
def evaluate_numeric_criterion (pv cv op : Str) : EvalRes :=
  match findNumbers pv, findNumbers cv with
  | [], _ => ⟨false, 0.0⟩
  | _ :: _, [] => ⟨false, 0.0⟩
  | p0 :: _, c0 :: _ =>
    let m :=
      if op = st ">" then decide (c0 < p0)
      else if op = st "<" then decide (p0 < c0)
      else if op = st "=" then decide (|p0 - c0| < 0.1)
      else decide (p0 = c0)
    ⟨m, if m then 1.0 else 0.0⟩

/-- eligibility_parser.py _evaluate_text_criterion: Jaccard overlap of the
word sets with a 0.3 threshold. -/
def evaluate_text_criterion (pv cv : Str) : EvalRes :=
  if pv = [] ∨ cv = [] then ⟨false, 0.0⟩
  else
    let pw := dedupFirst (splitWS pv)
    let cw := dedupFirst (splitWS cv)
    let overlap := (pw.filter cw.contains).length
    let total := (pw ++ cw.filter (fun w => !pw.contains w)).length
    if total = 0 then ⟨false, 0.0⟩
    else
      let sim := (overlap : ℚ) / total
      ⟨decide (0.3 < sim), sim⟩

/-- eligibility_parser.py _evaluate_criterion. -/
def evaluate_criterion (p : PatientData) (c : Crit) (category : Str) : EvalRes :=
  let pv := pyLower (pdGet p category)
  let cv := pyLower c.value
  if category = st "age" ∨ category = st "weight" ∨ category = st "laboratory" then
    evaluate_numeric_criterion pv cv c.operator
  else evaluate_text_criterion pv cv

/-- Result record of match_patient_to_criteria (human-readable explanation
strings are display-only and not modelled). -/
structure MatchResults where
  overall_score : ℚ
  inclusion_matches : List (Str × Crit × ℚ)
  exclusion_matches : List (Str × Crit × ℚ)
  inclusion_violations : List (Str × Crit)
  exclusion_violations : List (Str × Crit)
deriving DecidableEq, Repr

/-- Accumulator of the criteria loop: running score, matches, violations. -/
abbrev CritAcc := ℚ × List (Str × Crit × ℚ) × List (Str × Crit)

/-- Body of the inner criteria loop of match_patient_to_criteria. -/
def critStep (p : PatientData) (cat : Str) (acc : CritAcc) (c : Crit) : CritAcc :=
  let r := evaluate_criterion p c cat
  if r.matched then (acc.1 + r.score, acc.2.1 ++ [(cat, c, r.score)], acc.2.2)
  else (acc.1, acc.2.1, acc.2.2 ++ [(cat, c)])

/-- The accumulation loop over one polarity's category buckets: returns the
accumulated score, the matches and the violations. -/
def scanCriteria (p : PatientData) (buckets : List (Str × List Crit)) : CritAcc :=
  buckets.foldl (fun acc bucket => bucket.2.foldl (critStep p bucket.1) acc)
    (0, [], [])

/-- eligibility_parser.py match_patient_to_criteria: overall_score is the
inclusion total minus twice the exclusion total (line 390). -/
def match_patient_to_criteria (p : PatientData) (sc : Structured) : MatchResults :=
  let inc := scanCriteria p sc.inclusion
  let exc := scanCriteria p sc.exclusion
  { overall_score := inc.1 - exc.1 * 2
    inclusion_matches := inc.2.1
    exclusion_matches := exc.2.1
    inclusion_violations := inc.2.2
    exclusion_violations := exc.2.2 }

/-! ## Geographic matcher (src/utils/geographic_matcher.py)

Two aspects of this module are inherently external and are therefore passed
as parameters, so that every theorem quantifies over all of their behaviours:
the Nominatim geocoding web request (a Geocoder oracle receiving the city,
state and country of the request) and the haversine distance, which the
source computes with transcendental functions (math.sin, cos, asin, sqrt)
that have no executable rational embedding.  The filtering logic itself is
embedded faithfully. -/

structure Location where
  latitude : ℚ
  longitude : ℚ
  address : Str
  city : Str
  state : Str
  country : Str
  zip_code : Option Str := none
deriving DecidableEq, Repr

structure TrialLocation where
  facility_name : Str
  location : Location
  site_status : Str := st "active"
deriving DecidableEq, Repr

/-- External geocoding lookup (requests.get on Nominatim with the query
city, state, country): an arbitrary collaborator response. -/
abbrev Geocoder := Str → Str → Str → Option (ℚ × ℚ)

/-- A real-valued distance function standing for calculate_distance (the
haversine formula). -/
abbrev DistFn := Location → Location → ℚ

/-- geographic_matcher.py us_cities: the embedded gazetteer. -/
def us_cities : List (Str × Str × ℚ × ℚ) := [
  (st "new york", st "NY", 40.7128, -74.0060),
  (st "los angeles", st "CA", 34.0522, -118.2437),
  (st "chicago", st "IL", 41.8781, -87.6298),
  (st "houston", st "TX", 29.7604, -95.3698),
  (st "phoenix", st "AZ", 33.4484, -112.0740),
  (st "philadelphia", st "PA", 39.9526, -75.1652),
  (st "san antonio", st "TX", 29.4241, -98.4936),
  (st "san diego", st "CA", 32.7157, -117.1611),
  (st "dallas", st "TX", 32.7767, -96.7970),
  (st "san jose", st "CA", 37.3382, -121.8863),
  (st "austin", st "TX", 30.2672, -97.7431),
  (st "jacksonville", st "FL", 30.3322, -81.6557),
  (st "fort worth", st "TX", 32.7555, -97.3308),
  (st "columbus", st "OH", 39.9612, -82.9988),
  (st "charlotte", st "NC", 35.2271, -80.8431),
  (st "seattle", st "WA", 47.6062, -122.3321),
  (st "denver", st "CO", 39.7392, -104.9903),
  (st "boston", st "MA", 42.3601, -71.0589),
  (st "detroit", st "MI", 42.3314, -83.0458),
  (st "nashville", st "TN", 36.1627, -86.7816)]

/-- geographic_matcher.py state_abbreviations. -/
def state_abbreviations : List (Str × Str) := [
  (st "alabama", st "AL"), (st "alaska", st "AK"), (st "arizona", st "AZ"),
  (st "arkansas", st "AR"), (st "california", st "CA"), (st "colorado", st "CO"),
  (st "connecticut", st "CT"), (st "delaware", st "DE"), (st "florida", st "FL"),
  (st "georgia", st "GA"), (st "hawaii", st "HI"), (st "idaho", st "ID"),
  (st "illinois", st "IL"), (st "indiana", st "IN"), (st "iowa", st "IA"),
  (st "kansas", st "KS"), (st "kentucky", st "KY"), (st "louisiana", st "LA"),
  (st "maine", st "ME"), (st "maryland", st "MD"), (st "massachusetts", st "MA"),
  (st "michigan", st "MI"), (st "minnesota", st "MN"), (st "mississippi", st "MS"),
  (st "missouri", st "MO"), (st "montana", st "MT"), (st "nebraska", st "NE"),
  (st "nevada", st "NV"), (st "new hampshire", st "NH"), (st "new jersey", st "NJ"),
  (st "new mexico", st "NM"), (st "new york", st "NY"),
  (st "north carolina", st "NC"), (st "north dakota", st "ND"), (st "ohio", st "OH"),
  (st "oklahoma", st "OK"), (st "oregon", st "OR"), (st "pennsylvania", st "PA"),
  (st "rhode island", st "RI"), (st "south carolina", st "SC"),
  (st "south dakota", st "SD"), (st "tennessee", st "TN"), (st "texas", st "TX"),
  (st "utah", st "UT"), (st "vermont", st "VT"), (st "virginia", st "VA"),
  (st "washington", st "WA"), (st "west virginia", st "WV"),
  (st "wisconsin", st "WI"), (st "wyoming", st "WY")]

/-- _get_coordinates: gazetteer first, then one external geocoding lookup. -/
def get_coordinates (geocode : Geocoder) (city state country : Str) :
    Option (ℚ × ℚ) :=
  let cl := pyLower city
  match us_cities.find? (fun e => e.1 = cl) with
  | some e => some (e.2.2.1, e.2.2.2)
  | none => geocode city state country

/-- \b\d{5}(?:-\d{4})?\b (zip code extraction). -/
def zipRE : RE :=
  .cat [.wordB, reD, reD, reD, reD, reD,
    .opt (.cat [.chr '-', reD, reD, reD, reD]), .wordB]

/-- _extract_zip_code. -/
def extract_zip_code (s : Str) : Option Str :=
  (reSearch false zipRE s).map (group0 s)

/-- ([^,]+),\s*([^,]+)(?:,\s*([^,]+))? (location component extraction). -/
def locRE : RE :=
  .cat [.group 1 (RE.plus (noneOf ",")), .chr ',', .star reS,
    .group 2 (RE.plus (noneOf ",")),
    .opt (.cat [.chr ',', .star reS, .group 3 (RE.plus (noneOf ","))])]

/-- geographic_matcher.py parse_location_string. -/
def parse_location_string (geocode : Geocoder) (s0 : Str) : Option Location :=
  if pyStrip s0 = [] then none
  else
    let ls := pyLower (pyStrip s0)
    let parsed : Option (Str × Str × Str) :=
      match reSearch false locRE ls with
      | some m =>
        let city := pyStrip ((groupText ls m 1).getD [])
        let state := pyStrip ((groupText ls m 2).getD [])
        let country := match groupText ls m 3 with
          | some g => pyStrip g
          | none => st "Unknown"
        some (city, state, country)
      | none =>
        let parts := splitOnChar ',' ls
        if 2 ≤ parts.length then
          let city := pyStrip (parts.head?.getD [])
          let state_country := pyStrip ((parts.get? 1).getD [])
          if state_abbreviations.any (fun e => e.2 = state_country) ∨
              state_abbreviations.any (fun e => e.1 = state_country) then
            let state :=
              if state_abbreviations.any (fun e => e.2 = state_country) then
                state_country
              else
                ((state_abbreviations.find? (fun e => e.1 = state_country)).map
                  (·.2)).getD state_country
            some (city, state, st "USA")
          else
            let country :=
              if 2 < parts.length then pyStrip ((parts.get? 2).getD [])
              else st "Unknown"
            some (city, state_country, country)
        else none
    match parsed with
    | none => none
    | some csc =>
      match get_coordinates geocode csc.1 csc.2.1 csc.2.2 with
      | some co =>
        some { latitude := co.1, longitude := co.2, address := pyTitle ls,
               city := pyTitle csc.1, state := pyUpper csc.2.1,
               country := pyTitle csc.2.2, zip_code := extract_zip_code ls }
      | none => none

/-- _categorize_distance. -/
def categorize_distance (d : ℚ) : Str :=
  if d ≤ 25 then st "local"
  else if d ≤ 100 then st "regional"
  else if d ≤ 500 then st "national"
  else st "international"

/-- re.split(r[;|], locations_str). -/
def locSplitRE : RE := oneOf ";|"

/-- geographic_matcher.py _extract_trial_locations. -/
def extract_trial_locations (geocode : Geocoder) (row : Cells) : List TrialLocation :=
  let ls := (cellGet? row (st "Locations")).getD []
  if ls = [] ∨ ls = st "nan" then []
  else
    (reSplit false locSplitRE ls).foldl (fun acc ls0 =>
      let l := pyStrip ls0
      if l = [] then acc
      else
        let parts := splitOnChar ',' l
        if 2 ≤ parts.length then
          let facility := pyStrip (parts.head?.getD [])
          let locStr := pyStrip (joinWith (st ",") parts.tail)
          match parse_location_string geocode locStr with
          | some pl => acc ++ [⟨facility, pl, st "active"⟩]
          | none => acc
        else acc) []

/-- The closest-facility loop of filter_trials_by_location: minimum distance
and the trial location achieving it (first minimum wins, as in the strict
comparison of the source). -/
def closestOf (dist : DistFn) (patient : Location) (locs : List TrialLocation) :
    Option (ℚ × TrialLocation) :=
  locs.foldl (fun acc tl =>
    let d := dist patient tl.location
    match acc with
    | none => some (d, tl)
    | some md => if d < md.1 then some (d, tl) else acc) none

structure GeoRow where
  row : MRow
  distance_miles : ℚ
  closest_facility : Str
  closest_location : Str
  travel_category : Str
deriving DecidableEq, Repr

/-- Result of filter_trials_by_location: either the input frame passed back
unchanged (empty input, or unparseable patient location) or a fresh frame of
distance-annotated rows. -/
inductive GeoResult : Type
  | unfiltered (rows : Frame)
  | filtered (rows : List GeoRow)
deriving DecidableEq, Repr

def GeoResult.count : GeoResult → Nat
  | .unfiltered rows => rows.length
  | .filtered rows => rows.length

def GeoResult.annotated : GeoResult → List GeoRow
  | .unfiltered _ => []
  | .filtered rows => rows

/-- Ascending order on the distance_miles column (final sort key). -/
def byDistAsc (x y : GeoRow) : Prop := x.distance_miles ≤ y.distance_miles

instance : DecidableRel byDistAsc :=
  fun x y => (inferInstance : Decidable (x.distance_miles ≤ y.distance_miles))

instance : IsTotal GeoRow byDistAsc :=
  ⟨fun x y => le_total x.distance_miles y.distance_miles⟩

instance : IsTrans GeoRow byDistAsc :=
  ⟨fun _ _ _ hab hbc => le_trans hab hbc⟩

/-- The per-trial body of the filtering loop of filter_trials_by_location:
trials with no parseable facility are skipped; otherwise the trial is kept
exactly when its minimum facility distance is within the radius, annotated
with distance, closest facility and travel category. -/
def geoKeepRow (geocode : Geocoder) (dist : DistFn) (ploc : Location)
    (max_distance_miles : ℚ) (m : MRow) : Option GeoRow :=
  if extract_trial_locations geocode m.cells = [] then none
  else
    match closestOf dist ploc (extract_trial_locations geocode m.cells) with
    | none => none
    | some dc =>
      if dc.1 ≤ max_distance_miles then
        some ⟨m, dc.1, dc.2.facility_name, dc.2.location.address,
          categorize_distance dc.1⟩
      else none

/-- Patient location resolution step of filter_trials_by_location: a string
is parsed, a Location object is used as is. -/
def resolvePatientLoc (geocode : Geocoder) (patient : Str ⊕ Location) :
    Option Location :=
  match patient with
  | .inl s => parse_location_string geocode s
  | .inr l => some l

/-- Filtering loop and final distance sort of filter_trials_by_location,
once the patient location has been resolved. -/
def geoFilterWith (geocode : Geocoder) (dist : DistFn)
    (max_distance_miles : ℚ) (trials : Frame) (ploc : Location) : GeoResult :=
  if trials.filterMap (geoKeepRow geocode dist ploc max_distance_miles) ≠ [] then
    .filtered (List.insertionSort byDistAsc
      (trials.filterMap (geoKeepRow geocode dist ploc max_distance_miles)))
  else .filtered []

/-- geographic_matcher.py filter_trials_by_location (lines 209-275). -/
def filter_trials_by_location (geocode : Geocoder) (dist : DistFn)
    (trials : Frame) (patient : Str ⊕ Location) (max_distance_miles : ℚ) :
    GeoResult :=
  if trials = [] then .unfiltered trials
  else
    match resolvePatientLoc geocode patient with
    | none => .unfiltered trials
    | some ploc => geoFilterWith geocode dist max_distance_miles trials ploc

/-! ## Entity extractor (src/models/nlp_model.py)

The transformers NER pipeline is an optional external collaborator whose
model load fails outside a network-equipped environment; per the source (and
the spec) the deterministic rule-based branch _extract_with_rules is the
guaranteed fallback, and that branch is what is embedded here. -/

/-- nlp_model.py condition_patterns. -/
def nlp_condition_patterns : List Pat := [
  -- \b(breast|lung|...|neoplasm)\b
  ⟨.cat [.wordB, .group 1 (altWords ["breast", "lung", "prostate", "colon",
    "pancreatic", "ovarian", "brain", "liver", "kidney", "bladder", "cervical",
    "endometrial", "thyroid", "leukemia", "lymphoma", "melanoma", "sarcoma",
    "cancer", "carcinoma", "tumor", "tumour", "neoplasm"]), .wordB], 1⟩,
  -- \b(stage\s+[ivx0-9]+)\b
  ⟨.cat [.wordB, .group 1 (.cat [lit "stage", RE.plus reS,
    RE.plus (oneOf "ivx0123456789")]), .wordB], 1⟩,
  -- \b(her2|her-2|egfr|kras|braf|alk|ros1|pdl1|msi|tmb)\s*(positive|...)\b
  ⟨.cat [.wordB, .group 1 (altWords ["her2", "her-2", "egfr", "kras", "braf",
    "alk", "ros1", "pdl1", "msi", "tmb"]), .star reS,
    .group 2 (altWords ["positive", "negative", "high", "low", "mutated",
      "wild", "type"]), .wordB], 2⟩,
  -- \b(metastatic|metastasis|advanced|locally\s+advanced|recurrent|relapse)\b
  ⟨.cat [.wordB, .group 1 (alts [lit "metastatic", lit "metastasis",
    lit "advanced", phrase ["locally", "advanced"], lit "recurrent",
    lit "relapse"]), .wordB], 1⟩]

/-- nlp_model.py demo_patterns. -/
def nlp_demo_patterns : List Pat := [
  -- \b(male|female|m|f)\b
  ⟨.cat [.wordB, .group 1 (altWords ["male", "female", "m", "f"]), .wordB], 1⟩,
  -- \b(\d+)\s*(years?\s*old|yo|y\.o\.)\b
  ⟨.cat [.wordB, .group 1 (RE.plus reD), .star reS,
    .group 2 (alts [.cat [lit "year", .opt (.chr 's'), .star reS, lit "old"],
      lit "yo", lit "y.o."]), .wordB], 2⟩,
  -- \b(adult|older\s+adult|pediatric|child|infant)\b
  ⟨.cat [.wordB, .group 1 (alts [lit "adult", phrase ["older", "adult"],
    lit "pediatric", lit "child", lit "infant"]), .wordB], 1⟩]

/-- nlp_model.py treatment_patterns. -/
def nlp_treatment_patterns : List Pat := [
  -- \b(chemotherapy|chemo|radiation|radiotherapy|surgery|surgical|
  --   immunotherapy|targeted\s+therapy|hormone\s+therapy)\b
  ⟨.cat [.wordB, .group 1 (alts [lit "chemotherapy", lit "chemo",
    lit "radiation", lit "radiotherapy", lit "surgery", lit "surgical",
    lit "immunotherapy", phrase ["targeted", "therapy"],
    phrase ["hormone", "therapy"]]), .wordB], 1⟩,
  -- \b(prior|previous|history\s+of|no\s+prior)\s+(chemotherapy|chemo|radiation|surgery)\b
  ⟨.cat [.wordB, .group 1 (alts [lit "prior", lit "previous",
    phrase ["history", "of"], phrase ["no", "prior"]]), RE.plus reS,
    .group 2 (altWords ["chemotherapy", "chemo", "radiation", "surgery"]),
    .wordB], 2⟩,
  -- \b(smoker|non-smoker|never\s+smoked|former\s+smoker)\b
  ⟨.cat [.wordB, .group 1 (alts [lit "smoker", lit "non-smoker",
    phrase ["never", "smoked"], phrase ["former", "smoker"]]), .wordB], 1⟩]

/-- Python re.findall followed by the tuple-join loop of the source: a match
of a multi-group pattern contributes its groups joined by a space, a
one-group pattern contributes group 1, a groupless pattern the whole
match. -/
def findallJoined (ci : Bool) (p : Pat) (s : Str) : List Str :=
  (reFinditer ci p.re s).map (fun m =>
    if 2 ≤ p.ngroups then
      joinWith (st " ") ((matchGroups s m p.ngroups).map (·.getD []))
    else if p.ngroups = 1 then (groupText s m 1).getD []
    else group0 s m)

/-- nlp_model.py medical_words (supplementary single-word vocabulary). -/
def medical_words : List Str :=
  [st "cancer", st "tumor", st "tumour", st "malignant", st "metastatic",
   st "stage", st "grade", st "biopsy", st "pathology", st "oncology",
   st "chemotherapy", st "radiation", st "surgery", st "male", st "female",
   st "years", st "old", st "adult", st "pediatric", st "child"]

/-- nlp_model.py _extract_with_rules.  Python accumulates matches in sets,
whose iteration order is unspecified; sets are modelled as
first-occurrence-deduplicated lists. -/
def extract_with_rules (text : Str) : Entities :=
  let condM := nlp_condition_patterns.flatMap
    (fun p => (findallJoined true p text).map pyLower)
  let demoM := nlp_demo_patterns.flatMap
    (fun p => (findallJoined true p text).map pyLower)
  let treatM := nlp_treatment_patterns.flatMap
    (fun p => (findallJoined true p text).map pyLower)
  let wordHits :=
    (dedupFirst (splitWS (pyLower text))).filter medical_words.contains
  [(st "all_entities", dedupFirst (condM ++ demoM ++ treatM ++ wordHits)),
   (st "conditions", dedupFirst condM),
   (st "demographics", dedupFirst demoM),
   (st "treatments", dedupFirst treatM),
   (st "lab_values", [])]

/-- nlp_model.py extract_entities (lines 24-38): the early return for
empty / whitespace-only input builds a four-key dictionary without the
lab_values key; otherwise the text is lower-cased, stripped and handed to
the rule-based extractor. -/
def extract_entities (text : Str) : Entities :=
  if pyStrip text = [] then
    [(st "all_entities", []), (st "conditions", []), (st "demographics", []),
     (st "treatments", [])]
  else
    extract_with_rules (pyStrip (pyLower text))

/-- A category key is present in an entity bundle. -/
def entHasKey (d : Entities) (k : Str) : Bool := (d.find? (fun e => e.1 = k)).isSome

/-! ## Support lemmas for the matcher claims -/

theorem mem_matcherScored {ent : Entities} {trials : Frame} {m : MRow}
    (hm : m ∈ matcherScored ent trials) :
    ∃ q fs, m.confidence_score = some q ∧ m.field_scores = some fs := by
  unfold matcherScored at hm
  obtain ⟨t, _, rfl⟩ := List.mem_map.mp hm
  exact ⟨_, _, rfl, rfl⟩

theorem mem_matcherKept {ent : Entities} {trials : Frame} {m : MRow}
    (hm : m ∈ matcherKept ent trials) :
    m ∈ matcherScored ent trials ∧ 0 < scGet m := by
  unfold matcherKept at hm
  have h := List.mem_filter.mp hm
  exact ⟨h.1, of_decide_eq_true h.2⟩

theorem mem_matcherSorted {ent : Entities} {trials : Frame} {m : MRow}
    (hm : m ∈ matcherSorted ent trials) : m ∈ matcherKept ent trials :=
  (List.mem_insertionSort byScoreDesc).mp hm

theorem le_foldl_max (b : ℚ) (l : List ℚ) : b ≤ l.foldl max b := by
  induction l generalizing b with
  | nil => exact le_refl b
  | cons x xs ih => exact le_trans (le_max_left b x) (ih (max b x))

theorem mem_le_foldl_max {x : ℚ} {l : List ℚ} (hx : x ∈ l) (b : ℚ) :
    x ≤ l.foldl max b := by
  induction l generalizing b with
  | nil => cases hx
  | cons y ys ih =>
    rcases List.mem_cons.mp hx with rfl | hmem
    · exact le_trans (le_max_right b x) (le_foldl_max (max b x) ys)
    · exact ih hmem (max b y)

theorem foldl_max_cases (b : ℚ) (l : List ℚ) :
    l.foldl max b = b ∨ l.foldl max b ∈ l := by
  induction l generalizing b with
  | nil => exact Or.inl rfl
  | cons x xs ih =>
    rcases ih (max b x) with h | h
    · rcases max_choice b x with hb | hx
      · exact Or.inl (by rw [List.foldl_cons, h, hb])
      · exact Or.inr (by rw [List.foldl_cons, h, hx]; exact List.mem_cons_self x xs)
    · exact Or.inr (List.mem_cons_of_mem x h)

theorem le_matcherMaxScore {m : MRow} {ms : Frame} (hm : m ∈ ms) :
    scGet m ≤ matcherMaxScore ms := by
  unfold matcherMaxScore
  cases ms with
  | nil => cases hm
  | cons m0 rest =>
    simp only [List.map_cons]
    rcases List.mem_cons.mp hm with rfl | hmem
    · exact le_foldl_max (scGet m) (rest.map scGet)
    · exact mem_le_foldl_max (List.mem_map_of_mem scGet hmem) (scGet m0)

theorem matcherMaxScore_mem {ms : Frame} (h : ms ≠ []) :
    ∃ m ∈ ms, scGet m = matcherMaxScore ms := by
  unfold matcherMaxScore
  cases ms with
  | nil => exact absurd rfl h
  | cons m0 rest =>
    simp only [List.map_cons]
    rcases foldl_max_cases (scGet m0) (rest.map scGet) with he | he
    · exact ⟨m0, List.mem_cons_self m0 rest, he.symm⟩
    · obtain ⟨m1, hm1, hv⟩ := List.mem_map.mp he
      exact ⟨m1, List.mem_cons_of_mem m0 hm1, hv⟩

theorem matcherSorted_sorted (ent : Entities) (trials : Frame) :
    List.Sorted byScoreDesc (matcherSorted ent trials) :=
  List.sorted_insertionSort byScoreDesc (matcherKept ent trials)

/-! ## C2: result cap and positive scores -/

/-- C2: for every input entity bundle and trial table,
match_patient_to_trials returns at most 20 rows, and every returned row has
raw confidence score strictly greater than 0. -/
theorem matcher_cap20_and_positive_scores (ent : Entities) (trials : Frame) :
    (match_patient_to_trials ent trials).length ≤ 20 ∧
    ∀ m ∈ match_patient_to_trials ent trials,
      ∃ q, m.confidence_score = some q ∧ 0 < q := by
  unfold match_patient_to_trials
  split
  · simp
  · constructor
    · simp [List.length_take]
    · intro m hm
      have hm1 : m ∈ matcherWithPct ent trials := List.mem_of_mem_take hm
      unfold matcherWithPct at hm1
      obtain ⟨m0, hm0, rfl⟩ := List.mem_map.mp hm1
      have hk := mem_matcherKept (mem_matcherSorted hm0)
      obtain ⟨q, _, hq, _⟩ := mem_matcherScored hk.1
      refine ⟨q, hq, ?_⟩
      have : scGet m0 = q := by simp [scGet, hq]
      have hpos := hk.2
      rw [this] at hpos
      exact hpos

/-- C2 witness at a concrete input. -/
def entsW : Entities := [(st "all_entities", [st "x"])]

def rowPosW : MRow := { cells := [(st "Conditions", st "x")] }

def rowZeroW : MRow := { cells := [(st "Conditions", st "y")] }

def resRowW : MRow :=
  { cells := [(st "Conditions", st "x")],
    confidence_score := some 1.5,
    field_scores := some [(st "Conditions", 0.5)],
    confidence_percentage := some 100 }

theorem matcher_cap20_and_positive_scores_witness :
    (match_patient_to_trials entsW [rowPosW, rowZeroW]).length ≤ 20 ∧
    ∃ q, resRowW.confidence_score = some q ∧ 0 < q :=
  ⟨(matcher_cap20_and_positive_scores entsW [rowPosW, rowZeroW]).1,
   (matcher_cap20_and_positive_scores entsW [rowPosW, rowZeroW]).2 resRowW (by decide)⟩

/-! ## C1: confidence percentages -/

theorem pct_mem_shape {ent : Entities} {trials : Frame} {m : MRow}
    (hm : m ∈ matcherWithPct ent trials) :
    ∃ m0 ∈ matcherSorted ent trials,
      m = { m0 with
              confidence_percentage :=
                some (round1 (scGet m0 / matcherMax ent trials * 100)) } := by
  unfold matcherWithPct at hm
  obtain ⟨m0, hm0, rfl⟩ := List.mem_map.mp hm
  exact ⟨m0, hm0, rfl⟩

theorem matcher_guard_false {ent : Entities}
    (hent : entGet ent (st "all_entities") ≠ []) :
    (ent.isEmpty || (entGet ent (st "all_entities")).isEmpty) = false := by
  have h1 : (entGet ent (st "all_entities")).isEmpty = false := by
    cases hq : entGet ent (st "all_entities") with
    | nil => exact absurd hq hent
    | cons a l => rfl
  have h2 : ent.isEmpty = false := by
    cases ent with
    | nil => exact absurd rfl hent
    | cons a l => rfl
  rw [h1, h2]
  rfl

/-- C1: under a non-empty trial table and non-empty all_entities, every
returned row's confidence percentage lies in the interval from 0 to 100 and
equals round1 of (score / max score of the batch * 100); the returned row of
maximal raw score has percentage exactly 100. -/
theorem matcher_confidence_percentage (ent : Entities) (trials : Frame)
    (_htrials : trials ≠ []) (hent : entGet ent (st "all_entities") ≠ []) :
    (∀ m ∈ match_patient_to_trials ent trials,
      ∃ p, m.confidence_percentage = some p ∧ 0 ≤ p ∧ p ≤ 100 ∧
        p = round1 (scGet m / matcherMax ent trials * 100)) ∧
    (∀ m ∈ match_patient_to_trials ent trials,
      (∀ m2 ∈ match_patient_to_trials ent trials, scGet m2 ≤ scGet m) →
      m.confidence_percentage = some 100) := by
  have hg := matcher_guard_false hent
  have hres : match_patient_to_trials ent trials = (matcherWithPct ent trials).take 20 := by
    unfold match_patient_to_trials
    simp [hg]
  constructor
  · intro m hm
    rw [hres] at hm
    obtain ⟨m0, hm0, rfl⟩ := pct_mem_shape (List.mem_of_mem_take hm)
    have hpos : 0 < scGet m0 := (mem_matcherKept (mem_matcherSorted hm0)).2
    have hle : scGet m0 ≤ matcherMax ent trials := le_matcherMaxScore hm0
    have hmax : 0 < matcherMax ent trials := lt_of_lt_of_le hpos hle
    have hq0 : 0 ≤ scGet m0 / matcherMax ent trials * 100 :=
      mul_nonneg (div_nonneg hpos.le hmax.le) (by norm_num)
    have hq100 : scGet m0 / matcherMax ent trials * 100 ≤ 100 := by
      have hd : scGet m0 / matcherMax ent trials ≤ 1 := (div_le_one hmax).mpr hle
      calc scGet m0 / matcherMax ent trials * 100
          ≤ 1 * 100 := mul_le_mul_of_nonneg_right hd (by norm_num)
        _ = 100 := by norm_num
    exact ⟨round1 (scGet m0 / matcherMax ent trials * 100), rfl,
      round1_nonneg hq0, round1_le_100 hq100, rfl⟩
  · intro m hm hdom
    rw [hres] at hm
    obtain ⟨m0, hm0, hmeq⟩ := pct_mem_shape (List.mem_of_mem_take hm)
    have hpos : 0 < scGet m0 := (mem_matcherKept (mem_matcherSorted hm0)).2
    have hmax : 0 < matcherMax ent trials :=
      lt_of_lt_of_le hpos (le_matcherMaxScore hm0)
    subst hmeq
    cases hsort : matcherSorted ent trials with
    | nil => rw [hsort] at hm0; cases hm0
    | cons s0 rest =>
      have hhead : ({ s0 with
          confidence_percentage :=
            some (round1 (scGet s0 / matcherMax ent trials * 100)) } : MRow)
          ∈ match_patient_to_trials ent trials := by
        rw [hres]
        unfold matcherWithPct
        rw [hsort, List.map_cons]
        exact List.mem_cons_self _ _
      have hs0m : scGet s0 ≤ scGet m0 :=
        hdom ({ s0 with
          confidence_percentage :=
            some (round1 (scGet s0 / matcherMax ent trials * 100)) }) hhead
      obtain ⟨mx, hmx, hmxeq⟩ :=
        matcherMaxScore_mem
          (show matcherSorted ent trials ≠ [] by
            rw [hsort]; exact List.cons_ne_nil _ _)
      have hs : List.Sorted byScoreDesc (matcherSorted ent trials) :=
        matcherSorted_sorted ent trials
      have hmx_le_s0 : scGet mx ≤ scGet s0 := by
        rw [hsort] at hmx hs
        rcases List.mem_cons.mp hmx with rfl | hmem
        · exact le_refl _
        · exact List.rel_of_sorted_cons hs mx hmem
      have hmax_le_s0 : matcherMax ent trials ≤ scGet s0 := by
        unfold matcherMax
        rw [← hmxeq]
        exact hmx_le_s0
      have hm0eq : scGet m0 = matcherMax ent trials :=
        le_antisymm (le_matcherMaxScore hm0) (le_trans hmax_le_s0 hs0m)
      show some (round1 (scGet m0 / matcherMax ent trials * 100)) = some 100
      have hq : scGet m0 / matcherMax ent trials * 100 = 100 := by
        rw [hm0eq, div_self (ne_of_gt hmax)]
        norm_num
      rw [hq, round1_100]

theorem matcher_confidence_percentage_witness :
    (∃ p, resRowW.confidence_percentage = some p ∧ 0 ≤ p ∧ p ≤ 100 ∧
      p = round1 (scGet resRowW / matcherMax entsW [rowPosW, rowZeroW] * 100)) ∧
    resRowW.confidence_percentage = some 100 :=
  ⟨(matcher_confidence_percentage entsW [rowPosW, rowZeroW] (by decide) (by decide)).1
      resRowW (by decide),
   (matcher_confidence_percentage entsW [rowPosW, rowZeroW] (by decide) (by decide)).2
      resRowW (by decide) (by decide)⟩

/-- C6: when all_entities is empty (in particular for the bundle extracted
from empty patient text), match_patient_to_trials returns the empty result
for every trial table (and, being a total function, raises nothing). -/
theorem matcher_empty_entities_empty_result (ent : Entities) (trials : Frame)
    (h : entGet ent (st "all_entities") = []) :
    match_patient_to_trials ent trials = [] := by
  unfold match_patient_to_trials
  simp [h]

def entsEmptyW : Entities := [(st "all_entities", [])]

theorem matcher_empty_entities_empty_result_witness :
    entGet entsEmptyW (st "all_entities") = [] ∧
    match_patient_to_trials entsEmptyW [rowPosW] = [] :=
  ⟨by decide, matcher_empty_entities_empty_result entsEmptyW [rowPosW] (by decide)⟩

/-! ## C9: the matcher never mutates its input table -/

theorem heap_chain_get (h : Heap) (input A B C D : Frame) (r : Nat)
    (hr : r < h.length) :
    (((((h ++ [input]).set h.length A) ++ [B]) ++ [C]).set
        ((((h ++ [input]).set h.length A) ++ [B]).length) D).get? r
      = h.get? r := by
  have l1 : ((h ++ [input]).set h.length A).length = h.length + 1 := by simp
  have l2 : ((((h ++ [input]).set h.length A) ++ [B])).length = h.length + 2 := by
    simp
  rw [List.get?_set_ne D _ (by omega)]
  rw [List.get?_append (by simp only [List.length_append, l1]; omega)]
  rw [List.get?_append (by omega)]
  rw [List.get?_set_ne A _ (by omega)]
  exact List.get?_append hr

/-- C9: running the matcher with the pandas object semantics made explicit
leaves the input frame untouched (all derived columns are attached to the
copy), and the returned frame is exactly the functional matcher result on
the input table. -/
theorem matcher_never_mutates_input (ent : Entities) (h : Heap) (r : Nat)
    (hr : r < h.length) :
    (match_patient_to_trials_heap ent h r).1.get? r = h.get? r ∧
    (match_patient_to_trials_heap ent h r).2
      = match_patient_to_trials ent ((h.get? r).getD []) := by
  unfold match_patient_to_trials_heap match_patient_to_trials
  by_cases hg : (ent.isEmpty || (entGet ent (st "all_entities")).isEmpty) = true
  · simp [hg]
  · simp only [hg, if_false]
    refine ⟨?_, rfl⟩
    exact heap_chain_get h ((h.get? r).getD [])
      (matcherScored ent ((h.get? r).getD []))
      (matcherKept ent ((h.get? r).getD []))
      (matcherSorted ent ((h.get? r).getD []))
      (matcherWithPct ent ((h.get? r).getD [])) r hr

def heapW : Heap := [[rowPosW, rowZeroW]]

theorem matcher_never_mutates_input_witness :
    (match_patient_to_trials_heap entsW heapW 0).1.get? 0 = heapW.get? 0 ∧
    (match_patient_to_trials_heap entsW heapW 0).2
      = match_patient_to_trials entsW ((heapW.get? 0).getD []) :=
  matcher_never_mutates_input entsW heapW 0 (by decide)

/-! ## C3: overall score decomposition and the exclusion double penalty -/

/-- Sum of the evaluation scores of the matched criteria in one bucket. -/
def sumMatched (p : PatientData) (cat : Str) (cs : List Crit) : ℚ :=
  ((cs.filter (fun c => (evaluate_criterion p c cat).matched)).map
    (fun c => (evaluate_criterion p c cat).score)).sum

/-- Sum of the matched scores across one polarity's buckets. -/
def polarityTotal (p : PatientData) (buckets : List (Str × List Crit)) : ℚ :=
  (buckets.map (fun b => sumMatched p b.1 b.2)).sum

theorem critStep_fst (p : PatientData) (cat : Str) (acc : CritAcc) (c : Crit) :
    (critStep p cat acc c).1
      = acc.1 + (if (evaluate_criterion p c cat).matched then
          (evaluate_criterion p c cat).score else 0) := by
  unfold critStep
  by_cases hm : (evaluate_criterion p c cat).matched
  · simp [hm]
  · simp [hm]

theorem sumMatched_cons (p : PatientData) (cat : Str) (c : Crit) (cs : List Crit) :
    sumMatched p cat (c :: cs)
      = (if (evaluate_criterion p c cat).matched then
          (evaluate_criterion p c cat).score else 0) + sumMatched p cat cs := by
  unfold sumMatched
  by_cases hm : (evaluate_criterion p c cat).matched
  · simp [List.filter_cons, hm]
  · simp [List.filter_cons, hm]

theorem foldl_critStep_fst (p : PatientData) (cat : Str) :
    ∀ (cs : List Crit) (acc : CritAcc),
      (cs.foldl (critStep p cat) acc).1 = acc.1 + sumMatched p cat cs := by
  intro cs
  induction cs with
  | nil => intro acc; simp [sumMatched]
  | cons c cs ih =>
    intro acc
    rw [List.foldl_cons, ih, critStep_fst, sumMatched_cons]
    ring

theorem scanCriteria_fst (p : PatientData) (buckets : List (Str × List Crit)) :
    (scanCriteria p buckets).1 = polarityTotal p buckets := by
  unfold scanCriteria polarityTotal
  suffices h : ∀ (bs : List (Str × List Crit)) (acc : CritAcc),
      (bs.foldl (fun acc bucket => bucket.2.foldl (critStep p bucket.1) acc) acc).1
        = acc.1 + (bs.map (fun b => sumMatched p b.1 b.2)).sum by
    simpa using h buckets (0, [], [])
  intro bs
  induction bs with
  | nil => intro acc; simp
  | cons b bs ih =>
    intro acc
    rw [List.foldl_cons, ih, foldl_critStep_fst]
    rw [List.map_cons, List.sum_cons]
    ring

theorem evaluate_criterion_score_nonneg (p : PatientData) (c : Crit) (cat : Str) :
    0 ≤ (evaluate_criterion p c cat).score := by
  unfold evaluate_criterion
  split
  · unfold evaluate_numeric_criterion
    cases hp : findNumbers (pyLower (pdGet p cat)) with
    | nil =>
      simp only [hp]
      norm_num
    | cons p0 ps =>
      cases hc : findNumbers (pyLower c.value) with
      | nil =>
        simp only [hp, hc]
        norm_num
      | cons c0 cs =>
        simp only [hp, hc]
        split_ifs <;> norm_num
  · unfold evaluate_text_criterion
    dsimp only
    split_ifs
    · norm_num
    · norm_num
    · positivity

/-- C3: the overall score of match_patient_to_criteria is the sum of the
scores of the matched inclusion criteria minus twice the sum of the scores
of the matched exclusion criteria; appending one matched inclusion criterion
and one matched exclusion criterion of equal evaluation score s changes the
overall score by exactly -s, so the inclusion match never outweighs the
exclusion match of equal score. -/
theorem overall_score_decomposition (p : PatientData) (sc : Structured) :
    (match_patient_to_criteria p sc).overall_score
      = polarityTotal p sc.inclusion - 2 * polarityTotal p sc.exclusion ∧
    ∀ (ki ke : Str) (ci ce : Crit) (s : ℚ),
      evaluate_criterion p ci ki = ⟨true, s⟩ →
      evaluate_criterion p ce ke = ⟨true, s⟩ →
      (match_patient_to_criteria p
          ⟨sc.inclusion ++ [(ki, [ci])], sc.exclusion ++ [(ke, [ce])]⟩).overall_score
        = (match_patient_to_criteria p sc).overall_score - s ∧
      (match_patient_to_criteria p
          ⟨sc.inclusion ++ [(ki, [ci])], sc.exclusion ++ [(ke, [ce])]⟩).overall_score
        ≤ (match_patient_to_criteria p sc).overall_score := by
  have hov : ∀ (t : Structured), (match_patient_to_criteria p t).overall_score
      = polarityTotal p t.inclusion - 2 * polarityTotal p t.exclusion := by
    intro t
    show (scanCriteria p t.inclusion).1 - (scanCriteria p t.exclusion).1 * 2
      = polarityTotal p t.inclusion - 2 * polarityTotal p t.exclusion
    rw [scanCriteria_fst, scanCriteria_fst]
    ring
  refine ⟨hov sc, ?_⟩
  intro ki ke ci ce s hi he
  have hsum : ∀ (k : Str) (c : Crit), evaluate_criterion p c k = ⟨true, s⟩ →
      sumMatched p k [c] = s := by
    intro k c hc
    unfold sumMatched
    simp [List.filter_cons, hc]
  have happ : ∀ (bs : List (Str × List Crit)) (k : Str) (c : Crit),
      polarityTotal p (bs ++ [(k, [c])])
        = polarityTotal p bs + sumMatched p k [c] := by
    intro bs k c
    unfold polarityTotal
    simp
  have hs0 : 0 ≤ s := by
    have := evaluate_criterion_score_nonneg p ci ki
    rw [hi] at this
    exact this
  have heq : (match_patient_to_criteria p
      ⟨sc.inclusion ++ [(ki, [ci])], sc.exclusion ++ [(ke, [ce])]⟩).overall_score
      = (match_patient_to_criteria p sc).overall_score - s := by
    rw [hov, hov]
    show polarityTotal p (sc.inclusion ++ [(ki, [ci])])
        - 2 * polarityTotal p (sc.exclusion ++ [(ke, [ce])])
      = polarityTotal p sc.inclusion - 2 * polarityTotal p sc.exclusion - s
    rw [happ, happ, hsum ki ci hi, hsum ke ce he]
    ring
  exact ⟨heq, by rw [heq]; linarith⟩

def patW : PatientData := [(st "condition", st "breast cancer")]

def critW : Crit := { value := st "breast cancer" }

def scW : Structured := ⟨[], []⟩

theorem overall_score_decomposition_witness :
    (match_patient_to_criteria patW
        ⟨scW.inclusion ++ [(st "condition", [critW])],
         scW.exclusion ++ [(st "condition", [critW])]⟩).overall_score
      = (match_patient_to_criteria patW scW).overall_score - 1 ∧
    (match_patient_to_criteria patW
        ⟨scW.inclusion ++ [(st "condition", [critW])],
         scW.exclusion ++ [(st "condition", [critW])]⟩).overall_score
      ≤ (match_patient_to_criteria patW scW).overall_score :=
  (overall_score_decomposition patW scW).2 (st "condition") (st "condition")
    critW critW 1 (by decide) (by decide)

/-! ## C4: geographic filtering never widens the match set -/

theorem geoKeepRow_distance_le {geocode : Geocoder} {dist : DistFn}
    {ploc : Location} {maxD : ℚ} {m : MRow} {g : GeoRow}
    (h : geoKeepRow geocode dist ploc maxD m = some g) :
    g.distance_miles ≤ maxD := by
  unfold geoKeepRow at h
  split at h
  · exact Option.noConfusion h
  · split at h
    · exact Option.noConfusion h
    · split at h
      · rename_i hle
        injection h with h2
        subst h2
        exact hle
      · exact Option.noConfusion h

/-- C4: filter_trials_by_location never returns more rows than its input
contains, and every annotated surviving row's distance_miles is at most the
configured radius — for every geocoder response and every distance
function. -/
theorem geo_filter_shrinks_and_bounds (geocode : Geocoder) (dist : DistFn)
    (trials : Frame) (patient : Str ⊕ Location) (maxD : ℚ) :
    (filter_trials_by_location geocode dist trials patient maxD).count
      ≤ trials.length ∧
    ∀ g ∈ (filter_trials_by_location geocode dist trials patient maxD).annotated,
      g.distance_miles ≤ maxD := by
  have hcore : ∀ ploc : Location,
      (geoFilterWith geocode dist maxD trials ploc).count ≤ trials.length ∧
      ∀ g ∈ (geoFilterWith geocode dist maxD trials ploc).annotated,
        g.distance_miles ≤ maxD := by
    intro ploc
    unfold geoFilterWith
    split
    · constructor
      · show (List.insertionSort byDistAsc _).length ≤ trials.length
        rw [List.length_insertionSort]
        exact List.length_filterMap_le _ _
      · intro g hg
        have hg2 := (List.mem_insertionSort byDistAsc).mp hg
        obtain ⟨m, _, hk⟩ := List.mem_filterMap.mp hg2
        exact geoKeepRow_distance_le hk
    · refine ⟨by simp [GeoResult.count], ?_⟩
      intro g hg
      simp [GeoResult.annotated] at hg
  unfold filter_trials_by_location
  split
  · refine ⟨by simp [GeoResult.count], ?_⟩
    intro g hg
    simp [GeoResult.annotated] at hg
  · split
    · refine ⟨le_refl _, ?_⟩
      intro g hg
      simp [GeoResult.annotated] at hg
    · exact hcore _

def geoNoneW : Geocoder := fun _ _ _ => none

def distZeroW : DistFn := fun _ _ => 0

def geoTrialW : MRow :=
  { cells := [(st "Locations", st "Memorial Hospital, New York, NY")] }

def geoRowW : GeoRow :=
  { row := geoTrialW, distance_miles := 0,
    closest_facility := st "Memorial Hospital",
    closest_location := st "New York, Ny", travel_category := st "local" }

theorem geo_filter_shrinks_and_bounds_witness :
    (filter_trials_by_location geoNoneW distZeroW [geoTrialW]
        (.inl (st "new york, ny")) 100).count ≤ 1 ∧
    geoRowW.distance_miles ≤ 100 :=
  ⟨(geo_filter_shrinks_and_bounds geoNoneW distZeroW [geoTrialW]
      (.inl (st "new york, ny")) 100).1,
   (geo_filter_shrinks_and_bounds geoNoneW distZeroW [geoTrialW]
      (.inl (st "new york, ny")) 100).2 geoRowW (by decide)⟩

/-! ## C7: the extractor on empty or whitespace-only input -/

theorem dropWhile_eq_nil_of_all {p : Char → Bool} :
    ∀ {l : Str}, (∀ c ∈ l, p c) → l.dropWhile p = [] := by
  intro l h
  induction l with
  | nil => rfl
  | cons c cs ih =>
    rw [List.dropWhile_cons, if_pos (h c (List.mem_cons_self c cs))]
    exact ih (fun d hd => h d (List.mem_cons_of_mem c hd))

theorem pyStrip_eq_nil_of_all {l : Str} (h : ∀ c ∈ l, pyIsSpace c) :
    pyStrip l = [] := by
  unfold pyStrip
  rw [dropWhile_eq_nil_of_all h]
  rfl

/-- Refutation of C7 as stated: on the empty input the extractor's early
return builds a dictionary with only four keys, so the lab_values category
is not present in the returned bundle. -/
theorem extractor_missing_lab_values :
    entHasKey (extract_entities (st "")) (st "lab_values") = false := by decide

/-- C7 as amended: for every whitespace-only (in particular empty) input,
the extractor returns the four-key all-empty bundle: all_entities,
conditions, demographics and treatments are present and empty, lab_values is
absent; the embedded extractor is a total function, so no exception is
raised. -/
theorem extractor_empty_input (t : Str) (h : ∀ c ∈ t, pyIsSpace c) :
    extract_entities t
      = [(st "all_entities", []), (st "conditions", []),
         (st "demographics", []), (st "treatments", [])] ∧
    (∀ k ∈ [st "all_entities", st "conditions", st "demographics",
        st "treatments"],
      entHasKey (extract_entities t) k = true ∧ entGet (extract_entities t) k = []) ∧
    entHasKey (extract_entities t) (st "lab_values") = false := by
  have hs : pyStrip t = [] := pyStrip_eq_nil_of_all h
  have he : extract_entities t
      = [(st "all_entities", []), (st "conditions", []),
         (st "demographics", []), (st "treatments", [])] := by
    unfold extract_entities
    rw [if_pos hs]
  refine ⟨he, ?_, ?_⟩
  · rw [he]
    decide
  · rw [he]
    decide

theorem extractor_empty_input_witness :
    (∀ c ∈ st " ", pyIsSpace c = true) ∧
    extract_entities (st " ")
      = [(st "all_entities", []), (st "conditions", []),
         (st "demographics", []), (st "treatments", [])] :=
  ⟨by decide, (extractor_empty_input (st " ") (by decide)).1⟩

/-! ## C8: segmentation of criteria text -/

/-- Segmentation as the specification words it: split on the sentence
terminators, then further split each sentence fragment on bullet markers and
then on numbered-list markers in one sequential pass (each fragment once per
occurrence), discarding whitespace-only fragments. -/
def split_into_criteria_spec (t : Str) : List Str :=
  (((reSplit false sentSepRE t).flatMap (fun s =>
    (reSplit false bulletSepRE s).flatMap (fun b =>
      reSplit false numberSepRE b))).map pyStrip).filter (· ≠ [])

/-- Refutation of C8 as stated: on the text abc (one sentence, no markers)
the code emits the fragment twice, once from the bullet split and once from
the numbered-list split, while the claimed sequential segmentation emits it
once. -/
theorem segmentation_duplicates :
    split_into_criteria (st "abc") ≠ split_into_criteria_spec (st "abc") := by
  decide

theorem foldl_double_split (f g : Str → List Str) :
    ∀ (l : List Str) (acc : List Str),
      l.foldl (fun acc s => acc ++ f s ++ g s) acc
        = acc ++ l.flatMap (fun s => f s ++ g s) := by
  intro l
  induction l with
  | nil => intro acc; simp
  | cons s l ih =>
    intro acc
    rw [List.foldl_cons, ih]
    simp [List.append_assoc]

/-- C8 as amended: segmentation splits on the sentence terminators, then for
each sentence fragment appends both its bullet-split pieces and its
numbered-list-split pieces (two independent passes per sentence, so an
unmarked fragment appears twice), then strips fragments and drops the empty
ones. -/
theorem segmentation_shape (t : Str) :
    split_into_criteria t
      = (((reSplit false sentSepRE t).flatMap (fun s =>
          reSplit false bulletSepRE s ++ reSplit false numberSepRE s)).map
            pyStrip).filter (· ≠ []) := by
  unfold split_into_criteria
  show ((((reSplit false sentSepRE t).foldl (fun acc s =>
      acc ++ reSplit false bulletSepRE s ++ reSplit false numberSepRE s)
        []).map pyStrip).filter (· ≠ [])) = _
  rw [foldl_double_split]
  simp

/-! ## C10: the confidence floor and the short-fragment guard -/

/-- The category patterns flattened to (category, pattern) pairs in
iteration order. -/
def elig_patterns_flat : List (Str × Pat) :=
  elig_patterns.flatMap (fun cp => cp.2.map (fun p => (cp.1, p)))

/-- Every computed pattern-match confidence is at least 0.7: the base is
0.5 and the exact-match bonus condition always holds. -/
theorem confidence_floor (s : Str) (m : MatchInfo) :
    0.7 ≤ calculate_match_confidence s m := by
  unfold calculate_match_confidence
  refine le_min ?_ (by norm_num)
  rw [if_pos (show matchGroupDefault s m = group0 s m from rfl)]
  split_ifs <;> norm_num

/-- Accumulator of the best-match scan. -/
abbrev ScanAcc := ℚ × Option BestMatch

/-- The scan has found some match (with the confidence floor). -/
def scanLeft (a : ScanAcc) : Prop := a.2.isSome = true ∧ 0.7 ≤ a.1

/-- Scan invariant: either a match has been found, or nothing yet. -/
def scanInv (a : ScanAcc) : Prop := scanLeft a ∨ (a.2 = none ∧ a.1 = 0)

theorem criterionStep_left {t cat : Str} {p : Pat} {acc : ScanAcc}
    (m : MatchInfo) (h : scanInv acc) :
    scanLeft (criterionStep t cat p acc m) := by
  unfold criterionStep
  by_cases hc : acc.1 < calculate_match_confidence t m
  · rw [if_pos hc]
    exact ⟨rfl, confidence_floor t m⟩
  · rw [if_neg hc]
    rcases h with hl | hr
    · exact hl
    · exfalso
      rw [hr.2] at hc
      exact hc (lt_of_lt_of_le (by norm_num) (confidence_floor t m))

theorem foldl_step_left {t cat : Str} {p : Pat} :
    ∀ (ms : List MatchInfo) (acc : ScanAcc), scanLeft acc →
      scanLeft (ms.foldl (criterionStep t cat p) acc) := by
  intro ms
  induction ms with
  | nil => intro acc h; exact h
  | cons m ms ih =>
    intro acc h
    rw [List.foldl_cons]
    exact ih _ (criterionStep_left m (Or.inl h))

theorem foldl_step_inv {t cat : Str} {p : Pat} :
    ∀ (ms : List MatchInfo) (acc : ScanAcc), scanInv acc →
      scanInv (ms.foldl (criterionStep t cat p) acc) := by
  intro ms
  induction ms with
  | nil => intro acc h; exact h
  | cons m ms ih =>
    intro acc h
    rw [List.foldl_cons]
    exact ih _ (Or.inl (criterionStep_left m h))

theorem foldl_step_left_of_ne {t cat : Str} {p : Pat} {ms : List MatchInfo}
    {acc : ScanAcc} (hne : ms ≠ []) (h : scanInv acc) :
    scanLeft (ms.foldl (criterionStep t cat p) acc) := by
  cases ms with
  | nil => exact absurd rfl hne
  | cons m ms =>
    rw [List.foldl_cons]
    exact foldl_step_left ms _ (criterionStep_left m h)

theorem foldl_patterns_left (t : Str) :
    ∀ (l : List (Str × Pat)) (acc : ScanAcc), scanLeft acc →
      scanLeft (l.foldl (fun acc cp =>
        (reFinditer true cp.2.re t).foldl (criterionStep t cp.1 cp.2) acc) acc) := by
  intro l
  induction l with
  | nil => intro acc h; exact h
  | cons cp l ih =>
    intro acc h
    rw [List.foldl_cons]
    exact ih _ (foldl_step_left _ _ h)

theorem scanFlat_left (t : Str) :
    ∀ (l : List (Str × Pat)) (acc : ScanAcc), scanInv acc →
      (∃ cp ∈ l, reFinditer true cp.2.re t ≠ []) →
      scanLeft (l.foldl (fun acc cp =>
        (reFinditer true cp.2.re t).foldl (criterionStep t cp.1 cp.2) acc) acc) := by
  intro l
  induction l with
  | nil =>
    intro acc _ hex
    obtain ⟨cp, hcp, _⟩ := hex
    cases hcp
  | cons cp l ih =>
    intro acc hinv hex
    rw [List.foldl_cons]
    rcases hex with ⟨cp0, hcp0, hne⟩
    rcases List.mem_cons.mp hcp0 with rfl | hmem
    · exact foldl_patterns_left t l _ (foldl_step_left_of_ne hne hinv)
    · exact ih _ (foldl_step_inv _ _ hinv) ⟨cp0, hmem, hne⟩

/-- The nested loop over categories and patterns equals the single loop over
the flattened (category, pattern) list. -/
theorem criterionScan_eq_flat (t : Str) :
    criterionScan t = elig_patterns_flat.foldl (fun acc cp =>
      (reFinditer true cp.2.re t).foldl (criterionStep t cp.1 cp.2) acc)
      (0.0, none) := by
  unfold criterionScan elig_patterns_flat
  suffices h : ∀ (l : List (Str × List Pat)) (acc : ScanAcc),
      l.foldl (fun acc cp => cp.2.foldl (fun acc p =>
        (reFinditer true p.re t).foldl (criterionStep t cp.1 p) acc) acc) acc
        = (l.flatMap (fun cp => cp.2.map (fun p => (cp.1, p)))).foldl
            (fun acc cp => (reFinditer true cp.2.re t).foldl
              (criterionStep t cp.1 cp.2) acc) acc by
    exact h elig_patterns (0.0, none)
  intro l
  induction l with
  | nil => intro acc; rfl
  | cons cp l ih =>
    intro acc
    rw [List.foldl_cons, ih, List.flatMap_cons, List.foldl_append, List.foldl_map]

/-- Refutation of the final clause of C10 as stated: the fragment f (a
single character) matches the gender pattern (m|f) with a word boundary, yet
_parse_single_criterion produces no criterion for it, because of the
five-character minimum-length guard, not because of the confidence
threshold. -/
theorem parse_short_fragment_dropped :
    parse_single_criterion (st "f") = none ∧
    ∃ cp ∈ elig_patterns_flat, reFinditer true cp.2.re (st "f") ≠ [] := by
  constructor
  · decide
  · decide

/-- C10 as amended: every computed pattern-match confidence is at least 0.7
because the exact-match bonus condition match.group() == match.group(0) is
always true, so the 0.3 confidence threshold never drops a fragment that
matched a category pattern; only fragments matching no pattern at all, or
fragments shorter than 5 characters (the early length guard), produce no
criterion. -/
theorem criterion_confidence_floor :
    (∀ (s : Str) (m : MatchInfo),
      matchGroupDefault s m = group0 s m ∧ 0.7 ≤ calculate_match_confidence s m) ∧
    ∀ t : Str, 5 ≤ t.length →
      (∃ cp ∈ elig_patterns_flat, reFinditer true cp.2.re t ≠ []) →
      (parse_single_criterion t).isSome = true := by
  refine ⟨fun s m => ⟨rfl, confidence_floor s m⟩, ?_⟩
  intro t hlen hex
  have hscan : scanLeft (criterionScan t) := by
    rw [criterionScan_eq_flat]
    exact scanFlat_left t elig_patterns_flat (0.0, none)
      (Or.inr ⟨rfl, by norm_num⟩) hex
  obtain ⟨hsome, hge⟩ := hscan
  have hguard : ¬ (t = [] ∨ t.length < 5) := by
    rintro (rfl | hlt)
    · simp at hlen
    · omega
  unfold parse_single_criterion
  rw [if_neg hguard]
  cases hmm : (criterionScan t).2 with
  | none => rw [hmm] at hsome; exact absurd hsome (by simp)
  | some bm =>
    dsimp only
    rw [if_pos (lt_of_lt_of_le (by norm_num) hge)]
    rfl

theorem criterion_confidence_floor_witness :
    5 ≤ (st "45 years old").length ∧
    (parse_single_criterion (st "45 years old")).isSome = true :=
  ⟨by decide, criterion_confidence_floor.2 (st "45 years old")
    (by decide) (by decide)⟩

end TrialMatch
